import Mathlib

/-!
# Synonym registry and its embedded unit-testing framework

Shallow embedding of `Cpp/001_unit_testing_framework/main.cpp`.

* C++ `std::string` is `String`; `int` is `Int` (with two's-complement wrap-around of
  `++` made explicit), `size_t` is `Nat`, `unsigned` is `Unsigned` (a natural number
  below 2^32), `bool` is `Bool`. Floating-point types are not represented.
* The comparison `t != u` of a `T` with a `U` is the class `CppNe`: structural inequality
  between two values of one type, and the usual arithmetic conversions between an `int` or
  a `size_t` and an `unsigned`.
* `std::set<T>` and `std::map<K, V>` are represented by their iteration sequence, which the
  standard fixes as strictly ascending in `operator<` (ascending in the key for a map).
* An output stream is the text written to it so far; `out << x` appends the text of `x`
  and `endl` appends a newline.
* A C++ exception raised by a procedure is an `Except` error value.
-/

/-! ## `std::set<T>` -/

/-- Insertion of `x` into the ascending iteration sequence of a `std::set`:
the sequence is unchanged when an equivalent element is already present. -/
def StdSet.insertList {α : Type} [LinearOrder α] (x : α) : List α → List α
  | [] => [x]
  | y :: ys =>
    match compare x y with
    | .lt => x :: y :: ys
    | .eq => y :: ys
    | .gt => y :: StdSet.insertList x ys

theorem StdSet.mem_insertList {α : Type} [LinearOrder α] (x a : α) (l : List α) :
    a ∈ StdSet.insertList x l ↔ a = x ∨ a ∈ l := by
  induction l with
  | nil => simp [StdSet.insertList]
  | cons y ys ih =>
    unfold StdSet.insertList
    rcases h : compare x y with _ | _ | _
    · simp
    · have hxy : x = y := compare_eq_iff_eq.mp h
      subst hxy
      simp
    · simp only [List.mem_cons, ih]
      tauto

theorem StdSet.insertList_sorted {α : Type} [LinearOrder α] (x : α) (l : List α)
    (h : l.Sorted (· < ·)) : (StdSet.insertList x l).Sorted (· < ·) := by
  induction l with
  | nil => simp [StdSet.insertList]
  | cons y ys ih =>
    have hy : ∀ b ∈ ys, y < b := (List.sorted_cons.mp h).1
    have hys : ys.Sorted (· < ·) := (List.sorted_cons.mp h).2
    unfold StdSet.insertList
    rcases hc : compare x y with _ | _ | _
    · have hxy : x < y := compare_lt_iff_lt.mp hc
      refine List.sorted_cons.mpr ⟨?_, h⟩
      intro b hb
      rcases List.mem_cons.mp hb with rfl | hb
      · exact hxy
      · exact lt_trans hxy (hy b hb)
    · exact h
    · have hxy : y < x := compare_gt_iff_gt.mp hc
      refine List.sorted_cons.mpr ⟨?_, ih hys⟩
      intro b hb
      rcases (StdSet.mem_insertList x b ys).mp hb with rfl | hb
      · exact hxy
      · exact hy b hb

/-- Model of `std::set<T>`: the elements in iteration order, strictly ascending. -/
structure StdSet (α : Type) [LinearOrder α] where
  /-- The elements in iteration order (`begin()` to `end()`). -/
  elems : List α
  /-- The container invariant: strictly ascending, hence without duplicates. -/
  sorted : elems.Sorted (· < ·)

namespace StdSet

variable {α : Type} [LinearOrder α]

/-- The default-constructed (empty) set. -/
def empty : StdSet α := ⟨[], List.sorted_nil⟩

/-- The method `set::insert(x)`. -/
def insert (s : StdSet α) (x : α) : StdSet α :=
  ⟨insertList x s.elems, insertList_sorted x s.elems s.sorted⟩

/-- Construction from an initializer list, or by inserting the listed elements one after
the other into an empty set. -/
def ofList (xs : List α) : StdSet α := xs.foldl insert empty

/-- The method `set::size()`. -/
def size (s : StdSet α) : Nat := s.elems.length

/-- Search of the ascending sequence for an element equivalent to `x`. -/
def containsList (x : α) : List α → Bool
  | [] => false
  | y :: ys =>
    match compare x y with
    | .lt => false
    | .eq => true
    | .gt => containsList x ys

/-- The test `s.find(x) != s.end()`. -/
def contains (s : StdSet α) (x : α) : Bool := containsList x s.elems

theorem ext_elems {s t : StdSet α} (h : s.elems = t.elems) : s = t := by
  cases s; cases t; cases h; rfl

/-- The operator `==` of `std::set` compares the two iteration sequences element by element. -/
instance instDecidableEq [DecidableEq α] : DecidableEq (StdSet α) := fun s t =>
  decidable_of_iff (s.elems = t.elems) ⟨ext_elems, fun h => by rw [h]⟩

end StdSet

/-! ## `std::map<K, V>` -/

/-- Lookup of key `k` in the ascending entry sequence of a `std::map` (`map::find`). -/
def StdMap.findList {κ ν : Type} [LinearOrder κ] (k : κ) : List (κ × ν) → Option ν
  | [] => none
  | (k', v) :: r =>
    match compare k k' with
    | .lt => none
    | .eq => some v
    | .gt => StdMap.findList k r

/-- Insertion of the entry `(k, v)` into the ascending entry sequence of a `std::map`
(`map::insert`): an entry whose key is already present is left as it is. -/
def StdMap.insertList {κ ν : Type} [LinearOrder κ] (k : κ) (v : ν) :
    List (κ × ν) → List (κ × ν)
  | [] => [(k, v)]
  | (k', v') :: r =>
    match compare k k' with
    | .lt => (k, v) :: (k', v') :: r
    | .eq => (k', v') :: r
    | .gt => (k', v') :: StdMap.insertList k v r

/-- The statement `m[k] = f(m[k])` on the entry sequence: `operator[]` first inserts a
value-initialised entry `(k, dflt)` when `k` is absent, and the value found under `k` is then
replaced by its image under `f`. -/
def StdMap.updateList {κ ν : Type} [LinearOrder κ] (k : κ) (f : ν → ν) (dflt : ν) :
    List (κ × ν) → List (κ × ν)
  | [] => [(k, f dflt)]
  | (k', v') :: r =>
    match compare k k' with
    | .lt => (k, f dflt) :: (k', v') :: r
    | .eq => (k', f v') :: r
    | .gt => (k', v') :: StdMap.updateList k f dflt r

theorem StdMap.keys_insertList {κ ν : Type} [LinearOrder κ] (k : κ) (v : ν)
    (l : List (κ × ν)) :
    (StdMap.insertList k v l).map Prod.fst = StdSet.insertList k (l.map Prod.fst) := by
  induction l with
  | nil => rfl
  | cons e r ih =>
    obtain ⟨k', v'⟩ := e
    simp only [StdMap.insertList, StdSet.insertList, List.map_cons]
    rcases compare k k' with _ | _ | _
    · rfl
    · rfl
    · simp only [List.map_cons, ih]

theorem StdMap.keys_updateList {κ ν : Type} [LinearOrder κ] (k : κ) (f : ν → ν) (dflt : ν)
    (l : List (κ × ν)) :
    (StdMap.updateList k f dflt l).map Prod.fst = StdSet.insertList k (l.map Prod.fst) := by
  induction l with
  | nil => rfl
  | cons e r ih =>
    obtain ⟨k', v'⟩ := e
    simp only [StdMap.updateList, StdSet.insertList, List.map_cons]
    rcases compare k k' with _ | _ | _
    · rfl
    · rfl
    · simp only [List.map_cons, ih]

/-- Model of `std::map<K, V>`: the entries in iteration order, strictly ascending in the key. -/
structure StdMap (κ ν : Type) [LinearOrder κ] where
  /-- The entries in iteration order (`begin()` to `end()`). -/
  entries : List (κ × ν)
  /-- The container invariant: keys strictly ascending, hence unique. -/
  sorted : (entries.map Prod.fst).Sorted (· < ·)

namespace StdMap

variable {κ ν : Type} [LinearOrder κ]

/-- The default-constructed (empty) map. -/
def empty : StdMap κ ν := ⟨[], List.sorted_nil⟩

/-- The method `map::find(k)`: the value stored under `k`, or `none` for `end()`. -/
def find (m : StdMap κ ν) (k : κ) : Option ν := findList k m.entries

/-- The method `map::insert({k, v})`. -/
def insert (m : StdMap κ ν) (e : κ × ν) : StdMap κ ν :=
  ⟨insertList e.1 e.2 m.entries, by
    rw [keys_insertList]; exact StdSet.insertList_sorted _ _ m.sorted⟩

/-- The statement `m[k] = f(m[k])`, where `operator[]` value-initialises a missing entry
with `dflt`. -/
def update (m : StdMap κ ν) (k : κ) (f : ν → ν) (dflt : ν) : StdMap κ ν :=
  ⟨updateList k f dflt m.entries, by
    rw [keys_updateList]; exact StdSet.insertList_sorted _ _ m.sorted⟩

/-- Construction from an initializer list of entries, or by inserting the listed entries one
after the other into an empty map. -/
def ofList (es : List (κ × ν)) : StdMap κ ν := es.foldl insert empty

/-- The method `map::size()`. -/
def size (m : StdMap κ ν) : Nat := m.entries.length

theorem ext_entries {m n : StdMap κ ν} (h : m.entries = n.entries) : m = n := by
  cases m; cases n; cases h; rfl

/-- The operator `==` of `std::map` compares the two iteration sequences entry by entry. -/
instance instDecidableEq [DecidableEq κ] [DecidableEq ν] : DecidableEq (StdMap κ ν) :=
  fun m n => decidable_of_iff (m.entries = n.entries) ⟨ext_entries, fun h => by rw [h]⟩

end StdMap

/-! ## Scalars -/

/-- A value of type `unsigned` (`unsigned int`, 32 bits). -/
structure Unsigned where
  /-- The number represented. -/
  val : Nat
  /-- It fits in 32 bits. -/
  range : val < 4294967296
  deriving DecidableEq

/-- A literal with the suffix `U`, such as `0U`. -/
instance (n : Nat) : OfNat Unsigned n := ⟨⟨n % 4294967296, Nat.mod_lt n (by decide)⟩⟩

/-! ## The registry (`main.cpp`, lines 15-38) -/

/-- The alias `using Synonyms = map<string, set<string>>`. -/
abbrev Synonyms := StdMap String (StdSet String)

/-- The function `addSynonyms`: `synonyms[second_word].insert(first_word)` followed by
`synonyms[first_word].insert(second_word)`. -/
def addSynonyms (synonyms : Synonyms) (first_word second_word : String) : Synonyms :=
  let synonyms := synonyms.update second_word (fun s => s.insert first_word) StdSet.empty
  synonyms.update first_word (fun s => s.insert second_word) StdSet.empty

/-- The function `getSynonymCount`. -/
def getSynonymCount (synonyms : Synonyms) (word : String) : Nat :=
  match synonyms.find word with
  | some second => second.size
  | none => 0

/-- The function `areSynonyms`. -/
def areSynonyms (synonyms : Synonyms) (first_word second_word : String) : Bool :=
  match synonyms.find first_word with
  | some second => second.contains second_word
  | none => false

namespace neon1ks

/-! ## Out (`main.cpp`, lines 46-104) -/

/-- The overloads of `operator<<` on an output stream: `out << x` appends `format x` to the
text of `out`. -/
class Printable (α : Type) where
  /-- The text that `out << x` appends. -/
  format : α → String

open Printable (format)

/-- A `string` or string literal is written as it is. -/
instance printString : Printable String := ⟨fun s => s⟩

/-- An `int` is written in decimal, with a leading `-` when negative. -/
instance printInt : Printable Int := ⟨fun i => toString i⟩

/-- A `size_t` is written in decimal. -/
instance printSize : Printable Nat := ⟨fun n => toString n⟩

/-- An `unsigned` is written in decimal. -/
instance printUnsigned : Printable Unsigned := ⟨fun u => toString u.val⟩

/-- A `bool` is written as `1` or `0` (the stream is not in `boolalpha` mode). -/
instance printBool : Printable Bool := ⟨fun b => if b then "1" else "0"⟩

/-- The template `Join(c, d)`: the loop over the collection `c` (given by its iteration
sequence) carries the local stream `ss` and the flag `first`. -/
def Join {α δ : Type} [Printable α] [Printable δ] (c : List α) (d : δ) : String :=
  (c.foldl
    (fun (st : String × Bool) i =>
      let ss := if st.2 then st.1 else st.1 ++ format d
      (ss ++ format i, false))
    ("", true)).1

/-- The overload `operator<<(ostream &, const pair<First, Second> &)`. -/
instance printPair {α β : Type} [Printable α] [Printable β] : Printable (α × β) :=
  ⟨fun p => "(" ++ format p.1 ++ ", " ++ format p.2 ++ ")"⟩

/-- The overload `operator<<(ostream &, const vector<T> &)`. -/
instance printVector {α : Type} [Printable α] : Printable (List α) :=
  ⟨fun v => "[" ++ Join v ", " ++ "]"⟩

/-- The overload `operator<<(ostream &, const set<T> &)`. -/
instance printSet {α : Type} [LinearOrder α] [Printable α] : Printable (StdSet α) :=
  ⟨fun s => "\x7b" ++ Join s.elems ", " ++ "\x7d"⟩

/-- The overload `operator<<(ostream &, const map<Key, Value> &)`: the loop over the entries
carries the text written so far and the flag `first`. -/
instance printMap {κ ν : Type} [LinearOrder κ] [Printable κ] [Printable ν] :
    Printable (StdMap κ ν) :=
  ⟨fun m =>
    (m.entries.foldl
      (fun (st : String × Bool) kv =>
        let out := if !st.2 then st.1 ++ ", " else st.1
        (out ++ format kv.1 ++ ": " ++ format kv.2, false))
      ("\x7b", true)).1 ++ "\x7d"⟩

/-! ## Testing (`main.cpp`, lines 110-246) -/

/-- What a procedure can throw, as far as the handlers of `RunTest` tell apart: a
`runtime_error` (or a class derived from it) with the text of `what()`, or anything else. -/
inductive CppException where
  | runtime_error (what : String)
  | other (detail : String)
  deriving DecidableEq, Repr

deriving instance DecidableEq for Except

/-- The outcome of a call that returns `void`: `.ok ()`, or `.error e` when it throws `e`. -/
abbrev Outcome := Except CppException Unit

/-- The C++ comparison `t != u` of a value of type `T` with a value of type `U`. -/
class CppNe (T U : Type) where
  /-- The value of the expression `t != u`. -/
  ne : T → U → Bool

/-- Two values of one type among `string`, `bool`, `int`, `size_t`, `unsigned` and the
pairs, vectors, sets and maps built from them: `operator!=` is structural inequality. -/
@[default_instance]
instance neSameType {T : Type} [DecidableEq T] : CppNe T T := ⟨fun t u => decide (t ≠ u)⟩

/-- An `int` against an `unsigned`: the `int` is converted to `unsigned`, that is, reduced
modulo 2^32, before the two are compared. -/
instance neIntUnsigned : CppNe Int Unsigned :=
  ⟨fun i u => decide (i % 4294967296 ≠ (u.val : Int))⟩

/-- An `unsigned` against an `int`: the `int` is converted to `unsigned`. -/
instance neUnsignedInt : CppNe Unsigned Int :=
  ⟨fun u i => decide ((u.val : Int) ≠ i % 4294967296)⟩

/-- A `size_t` against an `unsigned`: the `unsigned` is converted to `size_t`, which keeps
its value. -/
instance neSizeUnsigned : CppNe Nat Unsigned := ⟨fun n u => decide (n ≠ u.val)⟩

/-- An `unsigned` against a `size_t`: the `unsigned` is converted to `size_t`. -/
instance neUnsignedSize : CppNe Unsigned Nat := ⟨fun u n => decide (u.val ≠ n)⟩

/-- The template `AssertEqual(t, u, hint)`, for a `T` and a `U` that have `operator<<` and
can be compared with `!=`. -/
def AssertEqual {T U : Type} [Printable T] [Printable U] [CppNe T U] (t : T) (u : U)
    (hint : String) : Outcome :=
  if CppNe.ne t u then
    .error (.runtime_error
      ("Assertion failed: " ++ format t ++ " != " ++ format u ++ " Hint: " ++ hint))
  else
    .ok ()

/-- The function `Assert(b, hint)`. -/
def Assert (b : Bool) (hint : String) : Outcome :=
  AssertEqual b true hint

/-- The procedure `TestAddSynonyms`. -/
def TestAddSynonyms : Unit → Outcome := fun _ => do
  let synonyms : Synonyms := StdMap.empty
  let synonyms := addSynonyms synonyms "a" "b"
  let expected : Synonyms := StdMap.ofList
    [("a", StdSet.ofList ["b"]),
     ("b", StdSet.ofList ["a"])]
  AssertEqual synonyms expected ""
  let synonyms : Synonyms := StdMap.ofList
    [("a", StdSet.ofList ["b"]),
     ("b", StdSet.ofList ["a", "c"]),
     ("c", StdSet.ofList ["b"])]
  let synonyms := addSynonyms synonyms "a" "c"
  let expected : Synonyms := StdMap.ofList
    [("a", StdSet.ofList ["b", "c"]),
     ("b", StdSet.ofList ["a", "c"]),
     ("c", StdSet.ofList ["a", "b"])]
  AssertEqual synonyms expected ""

/-- The procedure `TestCount`. -/
def TestCount : Unit → Outcome := fun _ => do
  let empty : Synonyms := StdMap.empty
  AssertEqual (getSynonymCount empty "a") (0 : Unsigned) "count for empty"
  let synonyms : Synonyms := StdMap.ofList
    [("a", StdSet.ofList ["b", "c"]),
     ("b", StdSet.ofList ["a"]),
     ("c", StdSet.ofList ["a"])]
  AssertEqual (getSynonymCount synonyms "a") (2 : Unsigned) "count for a"
  AssertEqual (getSynonymCount synonyms "b") (1 : Unsigned) "count for b"
  AssertEqual (getSynonymCount synonyms "z") (0 : Unsigned) "count for z"

/-- The procedure `TestAreSynonyms`. -/
def TestAreSynonyms : Unit → Outcome := fun _ => do
  let empty : Synonyms := StdMap.empty
  Assert (!areSynonyms empty "a" "b") "Empty a b"
  Assert (!areSynonyms empty "b" "a") "Empty b a"
  let synonyms : Synonyms := StdMap.ofList
    [("a", StdSet.ofList ["b", "c"]),
     ("b", StdSet.ofList ["a"]),
     ("c", StdSet.ofList ["a"])]
  Assert (areSynonyms synonyms "a" "b") ""
  Assert (areSynonyms synonyms "b" "a") ""
  Assert (areSynonyms synonyms "a" "c") ""
  Assert (areSynonyms synonyms "c" "a") ""
  Assert (!areSynonyms synonyms "b" "c") ""
  Assert (!areSynonyms synonyms "c" "b") ""

/-- The value of `++c` on a 32-bit `int`, with two's-complement wrap-around at `INT_MAX`. -/
def incrInt (c : Int) : Int := (c + 1 + 2147483648) % 4294967296 - 2147483648

/-- The class `TestRunner`: its only data member is `fail_count`. -/
structure TestRunner where
  fail_count : Int
  deriving DecidableEq, Repr

/-- The constructor `TestRunner() = default`, with the member initialiser `fail_count = 0`. -/
def TestRunner.new : TestRunner := ⟨0⟩

/-- The method `TestRunner::RunTest(func, test_name)`, threading the text of `cerr`: the
`try` block with its two handlers. The result is `.error e` when `e` leaves the call. The
procedure `func` is given by the outcome of its call; like the three procedures of this
program it writes nothing to `cerr` itself. -/
def TestRunner.RunTest (tr : TestRunner) (cerr : String) (func : Unit → Outcome)
    (test_name : String) : Except CppException (TestRunner × String) :=
  match func () with
  | .ok () => .ok (tr, cerr ++ test_name ++ " OK" ++ "\n")
  | .error (.runtime_error what) =>
    .ok (⟨incrInt tr.fail_count⟩, cerr ++ test_name ++ " fail: " ++ what ++ "\n")
  | .error (.other _) =>
    .ok (⟨incrInt tr.fail_count⟩, cerr ++ "Unknown exception caught" ++ "\n")

/-- The destructor `TestRunner::~TestRunner()`: the new text of `cerr`, and `some 1` when
`exit(1)` is called. -/
def TestRunner.destructor (tr : TestRunner) (cerr : String) : String × Option Int :=
  if tr.fail_count > 0 then
    (cerr ++ format tr.fail_count ++ " tests failed. Terminate" ++ "\n", some 1)
  else
    (cerr, none)

/-- A sequence of statements `tr.RunTest(func, name);` on one runner, in program order. -/
def runTests (tests : List ((Unit → Outcome) × String)) (tr : TestRunner) (cerr : String) :
    Except CppException (TestRunner × String) :=
  tests.foldlM (fun st t => st.1.RunTest st.2 t.1 t.2) (tr, cerr)

/-- A scope that declares a `TestRunner`, runs the given tests through it and ends, which
destroys the runner: the shape of the body of `TestAll`. -/
def runScope (tests : List ((Unit → Outcome) × String)) (cerr : String) :
    Except CppException (String × Option Int) := do
  let st ← runTests tests TestRunner.new cerr
  pure (st.1.destructor st.2)

/-- The function `TestAll`. -/
def TestAll (cerr : String) : Except CppException (String × Option Int) := do
  let tr := TestRunner.new
  let (tr, cerr) ← tr.RunTest cerr TestAreSynonyms "TestAreSynonyms"
  let (tr, cerr) ← tr.RunTest cerr TestAddSynonyms "TestAddSynonyms"
  let (tr, cerr) ← tr.RunTest cerr TestCount "TestCount"
  pure (tr.destructor cerr)

end neon1ks

/-! ## The driver (`main.cpp`, lines 250-292) -/

namespace Driver

/-- The standard input as the extractions of `main` see it: the value `q` that `readInt`
returns, and the whitespace-separated words that follow it. -/
structure Stdin where
  q : Int
  words : List String

/-- The extraction `cin >> word` into a fresh string: at the end of the input the string
stays empty. -/
def readWord : List String → String × List String
  | [] => ("", [])
  | w :: ws => (w, ws)

/-- One iteration of the command loop of `main`: the registry, the unread input and the text
of `cout`. -/
def command (st : Synonyms × List String × String) : Synonyms × List String × String :=
  let (synonyms, input, cout) := st
  let (operation_code, input) := readWord input
  if operation_code = "ADD" then
    let (first_word, input) := readWord input
    let (second_word, input) := readWord input
    (addSynonyms synonyms first_word second_word, input, cout)
  else if operation_code = "COUNT" then
    let (word, input) := readWord input
    (synonyms, input, cout ++ toString (getSynonymCount synonyms word) ++ "\n")
  else if operation_code = "CHECK" then
    let (first_word, input) := readWord input
    let (second_word, input) := readWord input
    if areSynonyms synonyms first_word second_word then
      (synonyms, input, cout ++ "YES" ++ "\n")
    else
      (synonyms, input, cout ++ "NO" ++ "\n")
  else
    (synonyms, input, cout)

/-- The loop `for (int i = 0; i < q; ++i)` of `main`, started on an empty registry: the text
written to `cout`. -/
def commands (input : Stdin) : String :=
  (Nat.iterate command input.q.toNat (StdMap.empty, input.words, "")).2.2

/-- The observable result of a run of the program. -/
structure Process where
  cerr : String
  cout : String
  status : Int
  deriving DecidableEq, Repr

/-- The part of `main` that follows the `#ifdef RUN_TESTS` block, given what the block left
behind: the text of `cerr`, and the exit status when `exit` was called in it (the rest of
`main` is then not executed). -/
def driver (tests : String × Option Int) (input : Stdin) : Process :=
  match tests with
  | (cerr, some status) => ⟨cerr, "", status⟩
  | (cerr, none) => ⟨cerr, commands input, 0⟩

/-- The function `main`; the flag tells whether the macro `RUN_TESTS` is defined. The result
is `.error e` when `e` leaves `main`. -/
def main (RUN_TESTS : Bool) (input : Stdin) : Except neon1ks.CppException Process := do
  let tests ← if RUN_TESTS then neon1ks.TestAll "" else pure ("", none)
  pure (driver tests input)

end Driver

/-! ## Vocabulary of the specification -/

namespace neon1ks

/-- A test entry raises: its procedure ends by throwing. -/
def raises (t : (Unit → Outcome) × String) : Bool :=
  match t.1 () with
  | .ok _ => false
  | .error _ => true

/-- The number of entries of a list of tests that raise. -/
def countRaising (tests : List ((Unit → Outcome) × String)) : Nat :=
  (tests.filter raises).length

/-- The line the specification expects on the diagnostic stream for one test entry. -/
def reportLine (t : (Unit → Outcome) × String) : String :=
  match t.1 () with
  | .ok _ => t.2 ++ " OK"
  | .error (.runtime_error message) => t.2 ++ " fail: " ++ message
  | .error (.other _) => "Unknown exception caught"

/-- A procedure that completes normally. -/
def passing : Unit → Outcome := fun _ => .ok ()

/-- A procedure whose body is the call `AssertEqual(1, 2)`. -/
def failing : Unit → Outcome := fun _ => AssertEqual (1 : Int) 2 ""

/-- A procedure that throws something other than a `runtime_error`. -/
def throwing : Unit → Outcome := fun _ => .error (.other "logic_error")

/-- A procedure whose body is `throw range_error("too far")`: a `runtime_error` that no
assertion raised. -/
def rangeThrowing : Unit → Outcome := fun _ => .error (.runtime_error "too far")

/-- The mapping `{"a": {"b"}, "b": {"a", "c"}, "c": {"b"}}`, built from an initializer
list. -/
def sampleMapping : Synonyms :=
  StdMap.ofList
    [("a", StdSet.ofList ["b"]),
     ("b", StdSet.ofList ["a", "c"]),
     ("c", StdSet.ofList ["b"])]

/-- The text of a sequence of lines, each ended by a newline. -/
def unlines : List String → String
  | [] => ""
  | l :: ls => l ++ "\n" ++ unlines ls

/-- The text `sub` occurs in the text `s`. -/
def occursIn (sub s : String) : Prop := sub.data <:+: s.data

instance (sub s : String) : Decidable (occursIn sub s) :=
  inferInstanceAs (Decidable (sub.data <:+: s.data))

end neon1ks

/-! ## The registry: exceptions and reachable states -/

/-- The method `map::at(k)`: the value stored under `k`; when `k` is absent it throws
`std::out_of_range`, which is not a `runtime_error`. -/
def StdMap.atKey {κ ν : Type} [LinearOrder κ] (m : StdMap κ ν) (k : κ) :
    Except neon1ks.CppException ν :=
  match m.find k with
  | some v => .ok v
  | none => .error (.other "out_of_range")

/-- The function `areSynonyms` read statement by statement, keeping the exception that each
of its two calls `synonyms.at(first_word)` can throw: the result is `.error e` when `e`
leaves the call. -/
def areSynonymsAt (synonyms : Synonyms) (first_word second_word : String) :
    Except neon1ks.CppException Bool :=
  if (synonyms.find first_word).isSome then do
    let found ← synonyms.atKey first_word
    let _ ← synonyms.atKey first_word
    pure (found.contains second_word)
  else
    pure false

/-- The registry that a sequence of `addSynonyms` calls, given by their pairs of words,
builds from the empty registry. -/
def registryOf (calls : List (String × String)) : Synonyms :=
  calls.foldl (fun synonyms c => addSynonyms synonyms c.1 c.2) StdMap.empty

/-! ## Auxiliary facts -/

open neon1ks neon1ks.Printable

theorem intercalate_go_nil (acc s : String) : String.intercalate.go acc s [] = acc := rfl

theorem intercalate_go_cons (acc s a : String) (l : List String) :
    String.intercalate.go acc s (a :: l) = String.intercalate.go (acc ++ s ++ a) s l := rfl

theorem intercalate_go_append (p acc s : String) (l : List String) :
    String.intercalate.go (p ++ acc) s l = p ++ String.intercalate.go acc s l := by
  induction l generalizing acc with
  | nil => rfl
  | cons a l ih =>
    rw [intercalate_go_cons, intercalate_go_cons, String.append_assoc, String.append_assoc, ih,
      String.append_assoc]

theorem intercalate_go_length (acc s : String) (l : List String) :
    (String.intercalate.go acc s l).length =
      acc.length + (l.map String.length).sum + l.length * s.length := by
  induction l generalizing acc with
  | nil => simp [intercalate_go_nil]
  | cons a l ih =>
    rw [intercalate_go_cons, ih]
    simp only [String.length_append, List.map_cons, List.sum_cons, List.length_cons]
    ring

/-- The loop of `Join`, entered with `first == false`, continues `String.intercalate.go`. -/
theorem Join_loop {α δ : Type} [Printable α] [Printable δ] (d : δ) (c : List α) (acc : String) :
    (c.foldl
      (fun (st : String × Bool) i =>
        ((if st.2 then st.1 else st.1 ++ format d) ++ format i, false))
      (acc, false)).1 = String.intercalate.go acc (format d) (c.map format) := by
  induction c generalizing acc with
  | nil => rfl
  | cons a c ih =>
    simp only [List.foldl_cons, List.map_cons, intercalate_go_cons]
    exact ih _

/-- The text `Join` builds is the texts of the elements with the text of the delimiter put
between them. -/
theorem Join_eq_intercalate {α δ : Type} [Printable α] [Printable δ] (c : List α) (d : δ) :
    Join c d = (format d).intercalate (c.map format) := by
  cases c with
  | nil => rfl
  | cons a c =>
    simp only [Join, List.foldl_cons, List.map_cons, String.intercalate]
    have h := Join_loop d c ("" ++ format a)
    simp only [String.empty_append] at h
    simpa using h

/-- The loop of the map overload, entered with `first == false`. -/
theorem formatMap_loop {κ ν : Type} [Printable κ] [Printable ν] (l : List (κ × ν))
    (acc : String) :
    (l.foldl
      (fun (st : String × Bool) kv =>
        ((if !st.2 then st.1 ++ ", " else st.1) ++ format kv.1 ++ ": " ++ format kv.2, false))
      (acc, false)).1 =
      String.intercalate.go acc ", " (l.map fun kv => format kv.1 ++ ": " ++ format kv.2) := by
  induction l generalizing acc with
  | nil => rfl
  | cons e l ih =>
    simp only [List.foldl_cons, List.map_cons, intercalate_go_cons]
    rw [ih]
    simp [String.append_assoc]

theorem format_map_eq {κ ν : Type} [LinearOrder κ] [Printable κ] [Printable ν]
    (m : StdMap κ ν) :
    format m = "\x7b" ++
      ", ".intercalate (m.entries.map fun kv => format kv.1 ++ ": " ++ format kv.2) ++ "\x7d" := by
  obtain ⟨l, hl⟩ := m
  cases l with
  | nil => rfl
  | cons e l =>
    simp only [format, List.foldl_cons, List.map_cons, String.intercalate]
    have h := formatMap_loop l ("\x7b" ++ format e.1 ++ ": " ++ format e.2)
    simp only [Bool.not_true, Bool.false_eq_true, if_false] at h ⊢
    rw [h, String.append_assoc "\x7b", String.append_assoc "\x7b", intercalate_go_append,
      String.append_assoc]

/-- On two values of one type `AssertEqual` tests their equality. -/
theorem AssertEqual_same_type {S : Type} [Printable S] [DecidableEq S] (v w : S)
    (hint : String) :
    AssertEqual v w hint =
      (if v = w then .ok ()
       else .error (.runtime_error
        ("Assertion failed: " ++ format v ++ " != " ++ format w ++ " Hint: " ++ hint))) := by
  unfold AssertEqual
  by_cases h : v = w <;> simp [h, CppNe.ne]

/-- Below `INT_MAX` the increment of an `int` is the mathematical one. -/
theorem incrInt_eq (c : Int) (h₁ : -2147483648 ≤ c) (h₂ : c < 2147483647) :
    incrInt c = c + 1 := by
  unfold incrInt
  omega

theorem iterate_incrInt (n : Nat) (c : Int) (h₁ : -2147483648 ≤ c)
    (h₂ : c + n < 2147483648) : incrInt^[n] c = c + n := by
  induction n generalizing c with
  | zero => simp
  | succ n ih =>
    rw [Function.iterate_succ_apply, incrInt_eq c h₁ (by omega), ih (c + 1) (by omega) (by omega)]
    push_cast
    ring

theorem countRaising_cons (t : (Unit → Outcome) × String)
    (tests : List ((Unit → Outcome) × String)) :
    countRaising (t :: tests) = (if raises t then 1 else 0) + countRaising tests := by
  unfold countRaising
  by_cases h : raises t = true
  · simp [List.filter_cons, h, Nat.add_comm]
  · simp [List.filter_cons, h]

/-- One call of `RunTest` always returns: it appends the line of the entry and increments
the counter exactly when the entry raises. -/
theorem RunTest_eq (tr : TestRunner) (cerr : String) (t : (Unit → Outcome) × String) :
    tr.RunTest cerr t.1 t.2 =
      .ok (⟨if raises t then incrInt tr.fail_count else tr.fail_count⟩,
        cerr ++ reportLine t ++ "\n") := by
  unfold TestRunner.RunTest raises reportLine
  rcases h : t.1 () with e | u
  · cases e <;> simp [String.append_assoc]
  · simp [String.append_assoc]

/-- A sequence of `RunTest` calls always returns: the counter has been incremented once per
raising entry and the lines of the entries have been appended in order. -/
theorem runTests_eq (tests : List ((Unit → Outcome) × String)) (tr : TestRunner)
    (cerr : String) :
    runTests tests tr cerr =
      .ok (⟨incrInt^[countRaising tests] tr.fail_count⟩,
        cerr ++ unlines (tests.map reportLine)) := by
  induction tests generalizing tr cerr with
  | nil => simp [runTests, countRaising, unlines, pure, Except.pure]
  | cons t tests ih =>
    have hstep : runTests (t :: tests) tr cerr =
        (tr.RunTest cerr t.1 t.2 >>= fun st => runTests tests st.1 st.2) := by
      simp [runTests, List.foldlM_cons]
    rw [hstep, RunTest_eq]
    show runTests tests _ _ = _
    rw [ih, countRaising_cons]
    by_cases h : raises t = true
    · simp [h, unlines, String.append_assoc, Nat.add_comm 1, Function.iterate_succ_apply]
    · simp [h, unlines, String.append_assoc]

/-! ### Sets and maps built by insertion -/

theorem StdSet.mem_foldl_insert {α : Type} [LinearOrder α] (xs : List α) (s : StdSet α)
    (a : α) : a ∈ (xs.foldl StdSet.insert s).elems ↔ a ∈ s.elems ∨ a ∈ xs := by
  induction xs generalizing s with
  | nil => simp
  | cons x xs ih =>
    rw [List.foldl_cons, ih]
    simp only [StdSet.insert, StdSet.mem_insertList, List.mem_cons]
    tauto

/-- A set built by insertion holds exactly the inserted elements. -/
theorem StdSet.mem_ofList {α : Type} [LinearOrder α] (xs : List α) (a : α) :
    a ∈ (StdSet.ofList xs).elems ↔ a ∈ xs := by
  simp [StdSet.ofList, StdSet.mem_foldl_insert, StdSet.empty]

/-- Two sets with the same members have the same iteration sequence. -/
theorem StdSet.eq_of_mem_iff {α : Type} [LinearOrder α] (s t : StdSet α)
    (h : ∀ a, a ∈ s.elems ↔ a ∈ t.elems) : s = t := by
  apply StdSet.ext_elems
  have hperm : s.elems.Perm t.elems :=
    (List.perm_ext_iff_of_nodup s.sorted.nodup t.sorted.nodup).mpr h
  exact List.eq_of_perm_of_sorted hperm s.sorted t.sorted

theorem StdMap.insertList_perm {κ ν : Type} [LinearOrder κ] (k : κ) (v : ν)
    (l : List (κ × ν)) (hk : k ∉ l.map Prod.fst) :
    (StdMap.insertList k v l).Perm ((k, v) :: l) := by
  induction l with
  | nil => exact List.Perm.refl _
  | cons e r ih =>
    obtain ⟨k', v'⟩ := e
    have hne : k ≠ k' := fun h => hk (by simp [h])
    have hr : k ∉ r.map Prod.fst := fun h => hk (by simp at h ⊢; exact Or.inr h)
    unfold StdMap.insertList
    rcases hc : compare k k' with _ | _ | _
    · exact List.Perm.refl _
    · exact absurd (compare_eq_iff_eq.mp hc) hne
    · exact ((ih hr).cons (k', v')).trans (List.Perm.swap _ _ _)

theorem StdMap.foldl_insert_perm {κ ν : Type} [LinearOrder κ] (es : List (κ × ν))
    (m : StdMap κ ν) (h : ((m.entries ++ es).map Prod.fst).Nodup) :
    (es.foldl StdMap.insert m).entries.Perm (m.entries ++ es) := by
  induction es generalizing m with
  | nil => simp
  | cons e es ih =>
    have hnd : (e.1 :: ((m.entries ++ es).map Prod.fst)).Nodup := by
      have hp : ((m.entries ++ e :: es).map Prod.fst).Perm
          (e.1 :: ((m.entries ++ es).map Prod.fst)) :=
        (List.perm_middle.map Prod.fst)
      exact hp.nodup_iff.mp h
    have hk : e.1 ∉ m.entries.map Prod.fst := by
      intro hmem
      apply (List.nodup_cons.mp hnd).1
      rw [List.map_append]
      exact List.mem_append_left _ hmem
    have hins : (m.insert e).entries.Perm (e :: m.entries) :=
      StdMap.insertList_perm e.1 e.2 m.entries hk
    have hnd' : (((m.insert e).entries ++ es).map Prod.fst).Nodup := by
      have hp : (((m.insert e).entries ++ es).map Prod.fst).Perm
          (e.1 :: ((m.entries ++ es).map Prod.fst)) :=
        ((hins.append_right es).map Prod.fst)
      exact hp.nodup_iff.mpr hnd
    rw [List.foldl_cons]
    exact (ih (m.insert e) hnd').trans ((hins.append_right es).trans List.perm_middle.symm)

/-- A map built by inserting entries with distinct keys holds exactly those entries. -/
theorem StdMap.ofList_perm {κ ν : Type} [LinearOrder κ] (es : List (κ × ν))
    (h : (es.map Prod.fst).Nodup) : (StdMap.ofList es).entries.Perm es := by
  have := StdMap.foldl_insert_perm es StdMap.empty (by simpa [StdMap.empty] using h)
  simpa [StdMap.ofList, StdMap.empty] using this

/-- Two maps with the same entries have the same iteration sequence. -/
theorem StdMap.eq_of_perm {κ ν : Type} [LinearOrder κ] (m n : StdMap κ ν)
    (h : m.entries.Perm n.entries) : m = n := by
  apply StdMap.ext_entries
  have hm : m.entries.Sorted (fun a b => a.1 < b.1) := List.pairwise_map.mp m.sorted
  have hn : n.entries.Sorted (fun a b => a.1 < b.1) := List.pairwise_map.mp n.sorted
  haveI : IsAntisymm (κ × ν) (fun a b => a.1 < b.1) :=
    ⟨fun a b hab hba => absurd hab (lt_asymm hba)⟩
  exact List.eq_of_perm_of_sorted h hm hn

/-! ### Lookup in sets and maps -/

theorem StdSet.containsList_iff {α : Type} [LinearOrder α] (x : α) (l : List α)
    (h : l.Sorted (· < ·)) : StdSet.containsList x l = true ↔ x ∈ l := by
  induction l with
  | nil => simp [StdSet.containsList]
  | cons y ys ih =>
    have hy : ∀ b ∈ ys, y < b := (List.sorted_cons.mp h).1
    have hys : ys.Sorted (· < ·) := (List.sorted_cons.mp h).2
    unfold StdSet.containsList
    rcases hc : compare x y with _ | _ | _
    · have hxy : x < y := compare_lt_iff_lt.mp hc
      simp only [Bool.false_eq_true, List.mem_cons, false_iff, not_or]
      exact ⟨ne_of_lt hxy, fun hmem => lt_asymm hxy (hy x hmem)⟩
    · have hxy : x = y := compare_eq_iff_eq.mp hc
      simp [hxy]
    · have hxy : y < x := compare_gt_iff_gt.mp hc
      simp only [List.mem_cons, ih hys]
      constructor
      · exact Or.inr
      · rintro (rfl | hmem)
        · exact absurd hxy (lt_irrefl _)
        · exact hmem

theorem StdSet.contains_iff {α : Type} [LinearOrder α] (s : StdSet α) (x : α) :
    s.contains x = true ↔ x ∈ s.elems :=
  StdSet.containsList_iff x s.elems s.sorted

theorem StdSet.contains_insert {α : Type} [LinearOrder α] (s : StdSet α) (x y : α) :
    (s.insert y).contains x = true ↔ x = y ∨ s.contains x = true := by
  rw [StdSet.contains_iff, StdSet.contains_iff]
  exact StdSet.mem_insertList y x s.elems

theorem StdSet.contains_empty {α : Type} [LinearOrder α] (x : α) :
    (StdSet.empty : StdSet α).contains x = false := rfl

theorem StdMap.findList_eq_some_iff {κ ν : Type} [LinearOrder κ] (k : κ) (v : ν)
    (l : List (κ × ν)) (h : (l.map Prod.fst).Sorted (· < ·)) :
    StdMap.findList k l = some v ↔ (k, v) ∈ l := by
  induction l with
  | nil => simp [StdMap.findList]
  | cons e r ih =>
    obtain ⟨k', v'⟩ := e
    rw [List.map_cons] at h
    have hk : ∀ b ∈ r.map Prod.fst, k' < b := (List.sorted_cons.mp h).1
    have hr : (r.map Prod.fst).Sorted (· < ·) := (List.sorted_cons.mp h).2
    have hmem : ∀ w, (k, w) ∈ r → k' < k := fun w hw =>
      hk k (List.mem_map.mpr ⟨(k, w), hw, rfl⟩)
    unfold StdMap.findList
    rcases hc : compare k k' with _ | _ | _
    · have hlt : k < k' := compare_lt_iff_lt.mp hc
      simp only [List.mem_cons, Prod.mk.injEq, false_iff, not_or, not_and, reduceCtorEq]
      exact ⟨fun hkk => absurd hkk (ne_of_lt hlt), fun hin => lt_asymm hlt (hmem v hin)⟩
    · have heq : k = k' := compare_eq_iff_eq.mp hc
      subst heq
      simp only [Option.some.injEq, List.mem_cons, Prod.mk.injEq, true_and]
      constructor
      · intro hv
        exact Or.inl hv.symm
      · rintro (hv | hin)
        · exact hv.symm
        · exact absurd (hmem v hin) (lt_irrefl _)
    · have hgt : k' < k := compare_gt_iff_gt.mp hc
      simp only [List.mem_cons, Prod.mk.injEq, ih hr]
      constructor
      · exact Or.inr
      · rintro (⟨hkk, _⟩ | hin)
        · exact absurd hgt (hkk ▸ lt_irrefl _)
        · exact hin

theorem StdMap.find_eq_some_iff {κ ν : Type} [LinearOrder κ] (m : StdMap κ ν) (k : κ)
    (v : ν) : m.find k = some v ↔ (k, v) ∈ m.entries :=
  StdMap.findList_eq_some_iff k v m.entries m.sorted

theorem StdMap.find_eq_none_iff {κ ν : Type} [LinearOrder κ] (m : StdMap κ ν) (k : κ) :
    m.find k = none ↔ k ∉ m.entries.map Prod.fst := by
  rw [Option.eq_none_iff_forall_not_mem]
  simp only [Option.mem_def, StdMap.find_eq_some_iff, List.mem_map, Prod.exists,
    exists_and_right, exists_eq_right, not_exists]

/-- Two maps with the same lookups are the same map. -/
theorem StdMap.ext_find {κ ν : Type} [LinearOrder κ] (m n : StdMap κ ν)
    (h : ∀ k, m.find k = n.find k) : m = n := by
  apply StdMap.eq_of_perm
  have hm : m.entries.Nodup := List.Nodup.of_map Prod.fst m.sorted.nodup
  have hn : n.entries.Nodup := List.Nodup.of_map Prod.fst n.sorted.nodup
  rw [List.perm_ext_iff_of_nodup hm hn]
  rintro ⟨k, v⟩
  rw [← StdMap.find_eq_some_iff, ← StdMap.find_eq_some_iff, h]

theorem StdMap.findList_updateList_self {κ ν : Type} [LinearOrder κ] (k : κ) (f : ν → ν)
    (dflt : ν) (l : List (κ × ν)) :
    StdMap.findList k (StdMap.updateList k f dflt l) =
      some (f ((StdMap.findList k l).getD dflt)) := by
  have hkk : compare k k = .eq := compare_eq_iff_eq.mpr rfl
  induction l with
  | nil => simp [StdMap.updateList, StdMap.findList, hkk]
  | cons e r ih =>
    obtain ⟨k', v'⟩ := e
    unfold StdMap.updateList
    rcases hc : compare k k' with _ | _ | _
    · simp [StdMap.findList, hc, hkk]
    · simp [StdMap.findList, hc]
    · simp [StdMap.findList, hc, ih]

theorem StdMap.findList_updateList_other {κ ν : Type} [LinearOrder κ] (k k₂ : κ)
    (f : ν → ν) (dflt : ν) (l : List (κ × ν)) (hne : k₂ ≠ k) :
    StdMap.findList k₂ (StdMap.updateList k f dflt l) = StdMap.findList k₂ l := by
  induction l with
  | nil =>
    simp only [StdMap.updateList, StdMap.findList]
    rcases hc : compare k₂ k with _ | _ | _
    · rfl
    · exact absurd (compare_eq_iff_eq.mp hc) hne
    · rfl
  | cons e r ih =>
    obtain ⟨k', v'⟩ := e
    unfold StdMap.updateList
    rcases hc : compare k k' with _ | _ | _
    · have hlt : k < k' := compare_lt_iff_lt.mp hc
      simp only [StdMap.findList]
      rcases hc₂ : compare k₂ k with _ | _ | _
      · have hlt₂ : k₂ < k := compare_lt_iff_lt.mp hc₂
        have : compare k₂ k' = .lt := compare_lt_iff_lt.mpr (lt_trans hlt₂ hlt)
        simp [this]
      · exact absurd (compare_eq_iff_eq.mp hc₂) hne
      · rfl
    · have heq : k = k' := compare_eq_iff_eq.mp hc
      subst heq
      simp only [StdMap.findList]
      rcases hc₂ : compare k₂ k with _ | _ | _
      · rfl
      · exact absurd (compare_eq_iff_eq.mp hc₂) hne
      · rfl
    · simp only [StdMap.findList]
      rcases hc₂ : compare k₂ k' with _ | _ | _
      · rfl
      · rfl
      · exact ih

theorem StdMap.find_update_self {κ ν : Type} [LinearOrder κ] (m : StdMap κ ν) (k : κ)
    (f : ν → ν) (dflt : ν) :
    (m.update k f dflt).find k = some (f ((m.find k).getD dflt)) :=
  StdMap.findList_updateList_self k f dflt m.entries

theorem StdMap.find_update_other {κ ν : Type} [LinearOrder κ] (m : StdMap κ ν) (k k₂ : κ)
    (f : ν → ν) (dflt : ν) (hne : k₂ ≠ k) :
    (m.update k f dflt).find k₂ = m.find k₂ :=
  StdMap.findList_updateList_other k k₂ f dflt m.entries hne

/-! ### The registry operations in terms of lookup -/

theorem StdSet.insert_idem {α : Type} [LinearOrder α] (s : StdSet α) (x : α) :
    (s.insert x).insert x = s.insert x := by
  apply StdSet.eq_of_mem_iff
  intro a
  simp only [StdSet.insert, StdSet.mem_insertList]
  tauto

theorem find_addSynonyms_first (s : Synonyms) (a b : String) :
    (addSynonyms s a b).find a = some (((s.find a).getD StdSet.empty).insert b) := by
  simp only [addSynonyms, StdMap.find_update_self]
  by_cases h : a = b
  · subst h
    simp only [StdMap.find_update_self, Option.getD_some, StdSet.insert_idem]
  · rw [StdMap.find_update_other _ _ _ _ _ h]

theorem find_addSynonyms_second (s : Synonyms) (a b : String) :
    (addSynonyms s a b).find b = some (((s.find b).getD StdSet.empty).insert a) := by
  by_cases h : a = b
  · subst h
    exact find_addSynonyms_first s a a
  · simp only [addSynonyms]
    rw [StdMap.find_update_other _ _ _ _ _ (Ne.symm h), StdMap.find_update_self]

theorem find_addSynonyms_other (s : Synonyms) (a b w : String) (ha : w ≠ a) (hb : w ≠ b) :
    (addSynonyms s a b).find w = s.find w := by
  simp only [addSynonyms]
  rw [StdMap.find_update_other _ _ _ _ _ ha, StdMap.find_update_other _ _ _ _ _ hb]

theorem areSynonyms_eq_contains (s : Synonyms) (a b : String) :
    areSynonyms s a b = ((s.find a).getD StdSet.empty).contains b := by
  unfold areSynonyms
  cases s.find a <;> rfl

/-- The pairs that `areSynonyms` accepts after a call of `addSynonyms` are the two
orientations of the added pair and the pairs accepted before. -/
theorem areSynonyms_addSynonyms (s : Synonyms) (x y a b : String) :
    areSynonyms (addSynonyms s x y) a b = true ↔
      (a = x ∧ b = y) ∨ (a = y ∧ b = x) ∨ areSynonyms s a b = true := by
  by_cases hax : a = x
  · subst hax
    rw [areSynonyms_eq_contains, find_addSynonyms_first, Option.getD_some,
      StdSet.contains_insert, ← areSynonyms_eq_contains]
    constructor
    · rintro (h | h)
      · exact Or.inl ⟨rfl, h⟩
      · exact Or.inr (Or.inr h)
    · rintro (⟨_, h⟩ | ⟨h₁, h₂⟩ | h)
      · exact Or.inl h
      · exact Or.inl (h₂.trans h₁)
      · exact Or.inr h
  · by_cases hay : a = y
    · subst hay
      rw [areSynonyms_eq_contains, find_addSynonyms_second, Option.getD_some,
        StdSet.contains_insert, ← areSynonyms_eq_contains]
      constructor
      · rintro (h | h)
        · exact Or.inr (Or.inl ⟨rfl, h⟩)
        · exact Or.inr (Or.inr h)
      · rintro (⟨h, _⟩ | ⟨_, h⟩ | h)
        · exact absurd h hax
        · exact Or.inl h
        · exact Or.inr h
    · rw [areSynonyms_eq_contains, find_addSynonyms_other s x y a hax hay,
        ← areSynonyms_eq_contains]
      constructor
      · exact fun h => Or.inr (Or.inr h)
      · rintro (⟨h, _⟩ | ⟨h, _⟩ | h)
        · exact absurd h hax
        · exact absurd h hay
        · exact h

theorem registryOf_append (calls : List (String × String)) (c : String × String) :
    registryOf (calls ++ [c]) = addSynonyms (registryOf calls) c.1 c.2 := by
  simp [registryOf, List.foldl_append]

/-! ### The counter at the end of the range of `int` -/

theorem countRaising_replicate_failing (n : Nat) (name : String) :
    countRaising (List.replicate n (failing, name)) = n := by
  have hr : raises (failing, name) = true := rfl
  induction n with
  | zero => rfl
  | succ n ih =>
    rw [List.replicate_succ, countRaising_cons, ih, hr, if_pos rfl, Nat.add_comm]

/-- The increment that follows `INT_MAX` increments wraps around to `INT_MIN`. -/
theorem iterate_incrInt_wrap (n : Nat) (hn : n = 2147483647) :
    incrInt^[n + 1] 0 = -2147483648 := by
  rw [Function.iterate_succ_apply', iterate_incrInt n 0 (by omega) (by omega), hn]
  decide

/-- A run in which exactly 2^31 procedures raise ends with the counter at `INT_MIN`, and
the destructor then neither writes nor exits. -/
theorem runTests_wrap (tests : List ((Unit → Outcome) × String)) (cerr : String)
    (h : countRaising tests = 2147483647 + 1) :
    runTests tests TestRunner.new cerr =
      .ok (⟨-2147483648⟩, cerr ++ unlines (tests.map reportLine)) ∧
    runScope tests cerr = .ok (cerr ++ unlines (tests.map reportLine), none) := by
  have hrun : runTests tests TestRunner.new cerr =
      .ok (⟨-2147483648⟩, cerr ++ unlines (tests.map reportLine)) := by
    rw [runTests_eq, h, TestRunner.new, iterate_incrInt_wrap 2147483647 rfl]
  refine ⟨hrun, ?_⟩
  simp only [runScope, hrun, TestRunner.destructor, bind, Except.bind, pure, Except.pure]
  rfl

/-! ## The claims -/

/-- The claim C1 fails for an `int` against an `unsigned`: `AssertEqual(-1, 4294967295U)`
returns normally although the two values differ and are written differently. -/
theorem AssertEqual_accepts_converted_int :
    AssertEqual (-1 : Int) (4294967295 : Unsigned) "" = .ok () ∧
    (-1 : Int) ≠ ((4294967295 : Unsigned).val : Int) ∧
    format (-1 : Int) = "-1" ∧
    format (4294967295 : Unsigned) = "4294967295" := by
  refine ⟨by decide, by decide, by decide, by decide⟩

/-- C1, amended: `AssertEqual(actual, expected, hint)` returns normally exactly when the
comparison `actual != expected` is false, and otherwise throws a failure whose message is
`"Assertion failed: " + format(actual) + " != " + format(expected) + " Hint: " + hint`.
For two values of one type the comparison is false exactly when they are equal, so
`AssertEqual(v, v, hint)` never fails; for an `int` against an `unsigned` it is false
exactly when the `int` reduced modulo 2^32 is the `unsigned`, so
`AssertEqual(-1, 4294967295U, hint)` returns normally. -/
theorem AssertEqual_contract {T U S : Type} [Printable T] [Printable U] [CppNe T U]
    [Printable S] [DecidableEq S] (actual : T) (expected : U) (v w : S) (i : Int)
    (u : Unsigned) (hint : String) :
    (AssertEqual actual expected hint = .ok () ↔ CppNe.ne actual expected = false) ∧
    AssertEqual actual expected hint =
      (if CppNe.ne actual expected then
        .error (.runtime_error
          ("Assertion failed: " ++ format actual ++ " != " ++ format expected ++
            " Hint: " ++ hint))
       else .ok ()) ∧
    (AssertEqual v w hint = .ok () ↔ v = w) ∧
    AssertEqual v v hint = .ok () ∧
    AssertEqual v w hint =
      (if v = w then .ok ()
       else .error (.runtime_error
        ("Assertion failed: " ++ format v ++ " != " ++ format w ++ " Hint: " ++ hint))) ∧
    (AssertEqual i u hint = .ok () ↔ i % 4294967296 = (u.val : Int)) ∧
    AssertEqual (-1 : Int) (4294967295 : Unsigned) hint = .ok () := by
  refine ⟨?_, rfl, ?_, ?_, AssertEqual_same_type v w hint, ?_, ?_⟩
  · unfold AssertEqual
    cases CppNe.ne actual expected <;> simp
  · rw [AssertEqual_same_type]
    by_cases h : v = w <;> simp [h]
  · rw [AssertEqual_same_type, if_pos rfl]
  · unfold AssertEqual
    by_cases h : i % 4294967296 = (u.val : Int) <;> simp [h, CppNe.ne]
  · have hne : CppNe.ne (-1 : Int) (4294967295 : Unsigned) = false := by decide
    unfold AssertEqual
    rw [hne]
    rfl

/-- The claim C2 fails for a list of 2^31 procedures that all raise: the `int` counter ends
at -2^31, not at the number of procedures that raised, and the destructor gives no failure
signal. -/
theorem failure_counter_wraps_around :
    countRaising (List.replicate 2147483648 (failing, "t")) = 2147483648 ∧
    runTests (List.replicate 2147483648 (failing, "t")) TestRunner.new "" =
      .ok (⟨-2147483648⟩,
        "" ++ unlines ((List.replicate 2147483648 (failing, "t")).map reportLine)) ∧
    runScope (List.replicate 2147483648 (failing, "t")) "" =
      .ok ("" ++ unlines ((List.replicate 2147483648 (failing, "t")).map reportLine), none) :=
  ⟨countRaising_replicate_failing 2147483648 "t",
    runTests_wrap (List.replicate 2147483648 (failing, "t")) ""
      (countRaising_replicate_failing 2147483648 "t")⟩

/-- C2, amended: running a list of test procedures of which fewer than 2^31 raise through a
fresh `TestRunner` leaves the failure counter equal to the number `F` of procedures that
raised, and the destructor ends the process with status 1 if and only if `F > 0`; with no
tests the counter stays 0, nothing is written and the run goes on to a success status. -/
theorem failure_counter_counts_raising (tests : List ((Unit → Outcome) × String))
    (cerr : String) (input : Driver.Stdin) (hF : countRaising tests < 2147483648) :
    (∃ out, runTests tests TestRunner.new cerr = .ok (⟨(countRaising tests : Int)⟩, out) ∧
      ∃ out', runScope tests cerr =
          .ok (out', if 0 < countRaising tests then some 1 else none) ∧
        (Driver.driver (out', if 0 < countRaising tests then some 1 else none) input).status =
          (if 0 < countRaising tests then 1 else 0)) ∧
    runTests [] TestRunner.new cerr = .ok (⟨0⟩, cerr) ∧
    runScope [] cerr = .ok (cerr, none) ∧
    (Driver.driver (cerr, none) input).status = 0 := by
  have hcount : incrInt^[countRaising tests] 0 = (countRaising tests : Int) := by
    rw [iterate_incrInt _ _ (by omega) (by omega)]
    simp
  refine ⟨⟨cerr ++ unlines (tests.map reportLine), ?_, ?_⟩, rfl, rfl, rfl⟩
  · rw [runTests_eq, TestRunner.new, hcount]
  · by_cases hpos : 0 < countRaising tests
    · have hgt : (countRaising tests : Int) > 0 := by omega
      refine ⟨cerr ++ unlines (tests.map reportLine) ++ format (countRaising tests : Int) ++
        " tests failed. Terminate" ++ "\n", ?_, ?_⟩
      · simp only [runScope, runTests_eq, TestRunner.new, hcount, TestRunner.destructor]
        simp [hgt, hpos, bind, Except.bind, pure, Except.pure]
      · simp [hpos, Driver.driver]
    · have hgt : ¬ (countRaising tests : Int) > 0 := by omega
      refine ⟨cerr ++ unlines (tests.map reportLine), ?_, ?_⟩
      · simp only [runScope, runTests_eq, TestRunner.new, hcount, TestRunner.destructor]
        simp [hgt, hpos, bind, Except.bind, pure, Except.pure]
      · simp [hpos, Driver.driver]

/-- The count of C2 on three concrete tests: one failing assertion, one completing
procedure, one unknown failure. -/
theorem failure_counter_counts_raising_witness :
    countRaising [(failing, "first"), (passing, "second"), (throwing, "third")] < 2147483648 ∧
    ((∃ out, runTests [(failing, "first"), (passing, "second"), (throwing, "third")]
          TestRunner.new "" =
        .ok (⟨(countRaising [(failing, "first"), (passing, "second"), (throwing, "third")] :
          Int)⟩, out) ∧
      ∃ out', runScope [(failing, "first"), (passing, "second"), (throwing, "third")] "" =
          .ok (out',
            if 0 < countRaising [(failing, "first"), (passing, "second"), (throwing, "third")]
            then some 1 else none) ∧
        (Driver.driver (out',
            if 0 < countRaising [(failing, "first"), (passing, "second"), (throwing, "third")]
            then some 1 else none) ⟨0, []⟩).status =
          (if 0 < countRaising [(failing, "first"), (passing, "second"), (throwing, "third")]
            then 1 else 0)) ∧
    runTests [] TestRunner.new "" = .ok (⟨0⟩, "") ∧
    runScope [] "" = .ok ("", none) ∧
    (Driver.driver ("", none) ⟨0, []⟩).status = 0) :=
  ⟨by decide,
    failure_counter_counts_raising [(failing, "first"), (passing, "second"), (throwing, "third")]
      "" ⟨0, []⟩ (by decide)⟩

/-- C3: a list of (name, procedure) entries run through `RunTest` appends to the diagnostic
stream exactly one line per entry, in registration order: `name + " OK"` for an entry that
completes, `name + " fail: " + message` for an entry that raises an assertion failure with
that message; the line of an entry depends on that entry alone. -/
theorem RunTest_lines_in_order (tests : List ((Unit → Outcome) × String)) (tr : TestRunner)
    (cerr : String) :
    (∃ tr', runTests tests tr cerr = .ok (tr', cerr ++ unlines (tests.map reportLine))) ∧
    (tests.map reportLine).length = tests.length ∧
    ∀ (i : Nat) (h : i < tests.length),
      (tests[i].1 () = .ok () →
        (tests.map reportLine)[i]? = some (tests[i].2 ++ " OK")) ∧
      ∀ message, tests[i].1 () = .error (.runtime_error message) →
        (tests.map reportLine)[i]? = some (tests[i].2 ++ " fail: " ++ message) := by
  refine ⟨⟨_, runTests_eq tests tr cerr⟩, by simp, ?_⟩
  intro i h
  constructor
  · intro hok
    simp [h, reportLine, hok]
  · intro message hfail
    simp [h, reportLine, hfail]

/-- The claim C4 fails for a procedure that throws a `runtime_error` which is not an
assertion failure: the line written is `range fail: too far`, not the generic diagnostic.
It also fails with the counter at `INT_MAX`, where the increment wraps around. -/
theorem non_assertion_failure_reported_by_name :
    rangeThrowing () = .error (.runtime_error "too far") ∧
    ¬ occursIn "Assertion failed" "too far" ∧
    TestRunner.new.RunTest "" rangeThrowing "range" = .ok (⟨1⟩, "range fail: too far\n") ∧
    ¬ occursIn "Unknown exception caught" "range fail: too far\n" ∧
    TestRunner.RunTest ⟨2147483647⟩ "" throwing "t" =
      .ok (⟨-2147483648⟩, "Unknown exception caught\n") := by
  refine ⟨rfl, by decide, by decide, by decide, by decide⟩

/-- C4, amended: when a procedure raises something that is not a `runtime_error`, with the
counter below `INT_MAX`, `RunTest` returns normally, with the counter increased by exactly 1
and the line `Unknown exception caught` written; the tests after it are run, and what they
report is what they report from any other state. A `runtime_error` that is not an assertion
failure is contained in the same way, but is reported as `name + " fail: " + what()`. -/
theorem unknown_failure_is_contained (func other : Unit → Outcome)
    (name detail what : String) (tr : TestRunner) (cerr : String)
    (after : List ((Unit → Outcome) × String))
    (hraise : func () = .error (.other detail))
    (hother : other () = .error (.runtime_error what))
    (hlo : -2147483648 ≤ tr.fail_count) (hhi : tr.fail_count < 2147483647) :
    tr.RunTest cerr func name =
      .ok (⟨tr.fail_count + 1⟩, cerr ++ "Unknown exception caught" ++ "\n") ∧
    runTests ((func, name) :: after) tr cerr =
      runTests after ⟨tr.fail_count + 1⟩ (cerr ++ "Unknown exception caught" ++ "\n") ∧
    (∃ tr', runTests ((func, name) :: after) tr cerr =
      .ok (tr', cerr ++ "Unknown exception caught" ++ "\n" ++ unlines (after.map reportLine))) ∧
    (∀ tr₀ cerr₀, ∃ tr₁, runTests after tr₀ cerr₀ =
      .ok (tr₁, cerr₀ ++ unlines (after.map reportLine))) ∧
    tr.RunTest cerr other name =
      .ok (⟨tr.fail_count + 1⟩, cerr ++ name ++ " fail: " ++ what ++ "\n") ∧
    runTests ((other, name) :: after) tr cerr =
      runTests after ⟨tr.fail_count + 1⟩ (cerr ++ name ++ " fail: " ++ what ++ "\n") ∧
    ∃ tr', runTests ((other, name) :: after) tr cerr =
      .ok (tr', cerr ++ name ++ " fail: " ++ what ++ "\n" ++ unlines (after.map reportLine)) := by
  have hcons : ∀ f : Unit → Outcome, runTests ((f, name) :: after) tr cerr =
      (tr.RunTest cerr f name >>= fun st => runTests after st.1 st.2) := by
    intro f
    simp [runTests, List.foldlM_cons]
  have hcall : tr.RunTest cerr func name =
      .ok (⟨tr.fail_count + 1⟩, cerr ++ "Unknown exception caught" ++ "\n") := by
    simp [TestRunner.RunTest, hraise, incrInt_eq _ hlo hhi]
  have hstep : runTests ((func, name) :: after) tr cerr =
      runTests after ⟨tr.fail_count + 1⟩ (cerr ++ "Unknown exception caught" ++ "\n") := by
    rw [hcons, hcall]
    rfl
  have hcall' : tr.RunTest cerr other name =
      .ok (⟨tr.fail_count + 1⟩, cerr ++ name ++ " fail: " ++ what ++ "\n") := by
    simp [TestRunner.RunTest, hother, incrInt_eq _ hlo hhi]
  have hstep' : runTests ((other, name) :: after) tr cerr =
      runTests after ⟨tr.fail_count + 1⟩ (cerr ++ name ++ " fail: " ++ what ++ "\n") := by
    rw [hcons, hcall']
    rfl
  refine ⟨hcall, hstep, ⟨⟨incrInt^[countRaising after] (tr.fail_count + 1)⟩, ?_⟩,
    fun tr₀ cerr₀ => ⟨_, runTests_eq after tr₀ cerr₀⟩, hcall', hstep',
    ⟨⟨incrInt^[countRaising after] (tr.fail_count + 1)⟩, ?_⟩⟩
  · rw [hstep, runTests_eq]
  · rw [hstep', runTests_eq]

/-- The containment of C4 on a fresh runner, with one completing test after the failure. -/
theorem unknown_failure_is_contained_witness :
    throwing () = .error (.other "logic_error") ∧
    rangeThrowing () = .error (.runtime_error "too far") ∧
    -2147483648 ≤ TestRunner.new.fail_count ∧
    TestRunner.new.fail_count < 2147483647 ∧
    (TestRunner.new.RunTest "" throwing "second" =
      .ok (⟨TestRunner.new.fail_count + 1⟩, "" ++ "Unknown exception caught" ++ "\n") ∧
    runTests [(throwing, "second"), (passing, "third")] TestRunner.new "" =
      runTests [(passing, "third")] ⟨TestRunner.new.fail_count + 1⟩
        ("" ++ "Unknown exception caught" ++ "\n") ∧
    (∃ tr', runTests [(throwing, "second"), (passing, "third")] TestRunner.new "" =
      .ok (tr', "" ++ "Unknown exception caught" ++ "\n" ++
        unlines ([(passing, "third")].map reportLine))) ∧
    (∀ tr₀ cerr₀, ∃ tr₁, runTests [(passing, "third")] tr₀ cerr₀ =
      .ok (tr₁, cerr₀ ++ unlines ([(passing, "third")].map reportLine))) ∧
    TestRunner.new.RunTest "" rangeThrowing "second" =
      .ok (⟨TestRunner.new.fail_count + 1⟩, "" ++ "second" ++ " fail: " ++ "too far" ++ "\n") ∧
    runTests [(rangeThrowing, "second"), (passing, "third")] TestRunner.new "" =
      runTests [(passing, "third")] ⟨TestRunner.new.fail_count + 1⟩
        ("" ++ "second" ++ " fail: " ++ "too far" ++ "\n") ∧
    ∃ tr', runTests [(rangeThrowing, "second"), (passing, "third")] TestRunner.new "" =
      .ok (tr', "" ++ "second" ++ " fail: " ++ "too far" ++ "\n" ++
        unlines ([(passing, "third")].map reportLine))) :=
  ⟨rfl, rfl, by decide, by decide,
    unknown_failure_is_contained throwing rangeThrowing "second" "logic_error" "too far"
      TestRunner.new "" [(passing, "third")] rfl rfl (by decide) (by decide)⟩

/-- C5: at the destruction of a `TestRunner` whose counter is `N`: if `N > 0` the line
`<N> tests failed. Terminate` (with `N` in decimal) is written and the process ends with
status 1, nothing of the command processing having run; if `N = 0` nothing is written and
`main` goes on to its command processing and ends with status 0. -/
theorem teardown_gates_the_driver (N : Nat) (cerr : String) (input : Driver.Stdin) :
    TestRunner.destructor ⟨N⟩ cerr =
      (if 0 < N then (cerr ++ Nat.repr N ++ " tests failed. Terminate" ++ "\n", some 1)
       else (cerr, none)) ∧
    Driver.driver (TestRunner.destructor ⟨N⟩ cerr) input =
      (if 0 < N then ⟨cerr ++ Nat.repr N ++ " tests failed. Terminate" ++ "\n", "", 1⟩
       else ⟨cerr, Driver.commands input, 0⟩) := by
  have hfmt : format (N : Int) = Nat.repr N := rfl
  by_cases hN : 0 < N
  · have hgt : (N : Int) > 0 := by omega
    simp [TestRunner.destructor, Driver.driver, hN, hgt, hfmt]
  · have hgt : ¬ (N : Int) > 0 := by omega
    simp [TestRunner.destructor, Driver.driver, hN, hgt]

/-- C6: a mapping is written as an opening brace, its entries in iteration order, each as
`format(key) + ": " + format(value)` and separated by `", "` with no separator before the
first or after the last, and a closing brace; the empty mapping gives the two braces alone.
Values are written by their own overload, so the mapping `{"a": {"b"}, "b": {"a", "c"},
"c": {"b"}}` with set values gives exactly `{a: {b}, b: {a, c}, c: {b}}`, which contains
`a: {b}` and `b: {a, c}`. -/
theorem format_mapping {κ ν : Type} [LinearOrder κ] [Printable κ] [Printable ν]
    (m : StdMap κ ν) :
    format m = "\x7b" ++
      ", ".intercalate (m.entries.map fun kv => format kv.1 ++ ": " ++ format kv.2) ++
      "\x7d" ∧
    format (StdMap.empty : StdMap κ ν) = "\x7b\x7d" ∧
    format sampleMapping = "\x7ba: \x7bb\x7d, b: \x7ba, c\x7d, c: \x7bb\x7d\x7d" ∧
    occursIn "a: \x7bb\x7d" (format sampleMapping) ∧
    occursIn "b: \x7ba, c\x7d" (format sampleMapping) :=
  ⟨format_map_eq m, rfl, by decide, by decide, by decide⟩

/-- C7: a set is written as an opening brace, the texts of its elements separated by `", "`
and a closing brace, the elements being its distinct members, each once, in ascending order.
A set built by insertion holds exactly the inserted elements, so its text depends only on
which elements were inserted, not on their order or multiplicity; sets with the same members
have the same text; the empty set gives the two braces alone. -/
theorem format_set {α : Type} [LinearOrder α] [Printable α] (s t : StdSet α)
    (xs ys : List α) :
    format s = "\x7b" ++ ", ".intercalate (s.elems.map format) ++ "\x7d" ∧
    s.elems.Sorted (· < ·) ∧
    s.elems.Nodup ∧
    (∀ a, a ∈ (StdSet.ofList xs).elems ↔ a ∈ xs) ∧
    ((∀ a, a ∈ xs ↔ a ∈ ys) → format (StdSet.ofList xs) = format (StdSet.ofList ys)) ∧
    ((∀ a, a ∈ s.elems ↔ a ∈ t.elems) → format s = format t) ∧
    format (StdSet.empty : StdSet α) = "\x7b\x7d" := by
  refine ⟨?_, s.sorted, s.sorted.nodup, StdSet.mem_ofList xs, ?_, ?_, rfl⟩
  · show "\x7b" ++ Join s.elems ", " ++ "\x7d" = _
    rw [Join_eq_intercalate]
    rfl
  · intro h
    rw [StdSet.eq_of_mem_iff (StdSet.ofList xs) (StdSet.ofList ys)]
    intro a
    rw [StdSet.mem_ofList, StdSet.mem_ofList, h]
  · intro h
    rw [StdSet.eq_of_mem_iff s t h]

theorem intercalate_length (d : String) (l : List String) :
    (d.intercalate l).length = (l.map String.length).sum + (l.length - 1) * d.length := by
  cases l with
  | nil => simp [String.intercalate]
  | cons a l =>
    simp only [String.intercalate, intercalate_go_length, List.map_cons, List.sum_cons,
      List.length_cons, Nat.add_sub_cancel]

/-- C8: a sequence is written as `[`, the texts of its elements in positional order
separated by `", "`, and `]`. `Join` puts the delimiter between consecutive elements only:
none for an empty or one-element collection, one before each further element, so `n - 1`
times for `n` elements. The empty sequence gives `[]`, a one-element sequence
`[` + format(v1) + `]`. -/
theorem format_sequence {α : Type} [Printable α] (v : List α) (x y : α) (d : String) :
    format v = "[" ++ ", ".intercalate (v.map format) ++ "]" ∧
    Join v d = d.intercalate (v.map format) ∧
    Join ([] : List α) d = "" ∧
    Join [x] d = format x ∧
    Join (x :: y :: v) d = format x ++ d ++ Join (y :: v) d ∧
    (Join v d).length = (v.map fun a => (format a).length).sum + (v.length - 1) * d.length ∧
    format ([] : List α) = "[]" ∧
    format [x] = "[" ++ format x ++ "]" := by
  have hd : format d = d := rfl
  have hJ : ∀ c : List α, Join c d = d.intercalate (c.map format) := fun c => by
    rw [Join_eq_intercalate, hd]
  refine ⟨?_, hJ v, rfl, ?_, ?_, ?_, rfl, ?_⟩
  · show "[" ++ Join v ", " ++ "]" = _
    rw [Join_eq_intercalate]
    rfl
  · rw [hJ]
    rfl
  · rw [hJ, hJ]
    simp only [List.map_cons, String.intercalate, intercalate_go_cons]
    rw [String.append_assoc, String.append_assoc, intercalate_go_append, intercalate_go_append]
  · rw [hJ, intercalate_length, List.map_map, List.length_map]
    rfl
  · show "[" ++ Join [x] ", " ++ "]" = _
    rw [Join_eq_intercalate]
    rfl

/-- C9: the equality that `AssertEqual` uses does not depend on the order of construction:
for two sets built by inserting the same elements in different orders, and for two mappings
built by inserting the same entries (with distinct keys) in different orders,
`AssertEqual(first, second, hint)` returns normally. -/
theorem AssertEqual_order_independent {α κ ν : Type} [LinearOrder α] [DecidableEq α]
    [Printable α] [LinearOrder κ] [DecidableEq κ] [Printable κ] [DecidableEq ν] [Printable ν]
    (xs ys : List α) (es fs : List (κ × ν)) (hint : String)
    (hsame : xs.Perm ys) (hkeys : (es.map Prod.fst).Nodup) (hentries : es.Perm fs) :
    AssertEqual (StdSet.ofList xs) (StdSet.ofList ys) hint = .ok () ∧
    AssertEqual (StdMap.ofList es) (StdMap.ofList fs) hint = .ok () := by
  have hset : StdSet.ofList xs = StdSet.ofList ys := by
    apply StdSet.eq_of_mem_iff
    intro a
    rw [StdSet.mem_ofList, StdSet.mem_ofList, hsame.mem_iff]
  have hkeys' : (fs.map Prod.fst).Nodup := (hentries.map Prod.fst).nodup_iff.mp hkeys
  have hmap : StdMap.ofList es = StdMap.ofList fs := by
    apply StdMap.eq_of_perm
    exact (StdMap.ofList_perm es hkeys).trans
      (hentries.trans (StdMap.ofList_perm fs hkeys').symm)
  constructor
  · rw [AssertEqual_same_type, if_pos hset]
  · rw [AssertEqual_same_type, if_pos hmap]

/-- The order independence of C9 on a set of three words and a mapping of two entries. -/
theorem AssertEqual_order_independent_witness :
    ["c", "a", "b"].Perm ["b", "c", "a"] ∧
    ([("b", StdSet.ofList ["a", "c"]), ("a", StdSet.ofList ["b"])].map Prod.fst).Nodup ∧
    [("b", StdSet.ofList ["a", "c"]), ("a", StdSet.ofList ["b"])].Perm
      [("a", StdSet.ofList ["b"]), ("b", StdSet.ofList ["a", "c"])] ∧
    AssertEqual (StdSet.ofList ["c", "a", "b"]) (StdSet.ofList ["b", "c", "a"]) "sets" = .ok () ∧
    AssertEqual (StdMap.ofList [("b", StdSet.ofList ["a", "c"]), ("a", StdSet.ofList ["b"])])
      (StdMap.ofList [("a", StdSet.ofList ["b"]), ("b", StdSet.ofList ["a", "c"])]) "sets" =
      .ok () :=
  ⟨by decide, by decide, by decide,
    AssertEqual_order_independent ["c", "a", "b"] ["b", "c", "a"]
      [("b", StdSet.ofList ["a", "c"]), ("a", StdSet.ofList ["b"])]
      [("a", StdSet.ofList ["b"]), ("b", StdSet.ofList ["a", "c"])] "sets"
      (by decide) (by decide) (by decide)⟩

theorem reportLine_passing (n : String) : reportLine (passing, n) = n ++ " OK" := rfl

theorem reportLine_failing (n : String) :
    reportLine (failing, n) = n ++ " fail: Assertion failed: 1 != 2 Hint: " := by
  have hmsg : failing () = .error (.runtime_error "Assertion failed: 1 != 2 Hint: ") := by
    decide
  simp only [reportLine, hmsg, String.append_assoc]
  rfl

/-- C10: two procedures that complete and one whose body is `AssertEqual(1, 2)`, under any
three names and with the failing entry in any of the three positions, write in registration
order the two lines `name + " OK"` and the line
`name + " fail: Assertion failed: 1 != 2 Hint: "`, which contains `1 != 2`; the counter ends
at exactly 1, and the destructor writes its summary and ends the process with status 1. -/
theorem two_passing_one_failing (n₁ n₂ n₃ cerr : String) (input : Driver.Stdin) :
    runTests [(failing, n₁), (passing, n₂), (passing, n₃)] TestRunner.new cerr =
      .ok (⟨1⟩, cerr ++ unlines
        [n₁ ++ " fail: Assertion failed: 1 != 2 Hint: ", n₂ ++ " OK", n₃ ++ " OK"]) ∧
    runTests [(passing, n₁), (failing, n₂), (passing, n₃)] TestRunner.new cerr =
      .ok (⟨1⟩, cerr ++ unlines
        [n₁ ++ " OK", n₂ ++ " fail: Assertion failed: 1 != 2 Hint: ", n₃ ++ " OK"]) ∧
    runTests [(passing, n₁), (passing, n₂), (failing, n₃)] TestRunner.new cerr =
      .ok (⟨1⟩, cerr ++ unlines
        [n₁ ++ " OK", n₂ ++ " OK", n₃ ++ " fail: Assertion failed: 1 != 2 Hint: "]) ∧
    (∀ n, occursIn "1 != 2" (n ++ " fail: Assertion failed: 1 != 2 Hint: ")) ∧
    runScope [(failing, n₁), (passing, n₂), (passing, n₃)] cerr =
      .ok (cerr ++ unlines
        [n₁ ++ " fail: Assertion failed: 1 != 2 Hint: ", n₂ ++ " OK", n₃ ++ " OK",
          "1 tests failed. Terminate"], some 1) ∧
    runScope [(passing, n₁), (failing, n₂), (passing, n₃)] cerr =
      .ok (cerr ++ unlines
        [n₁ ++ " OK", n₂ ++ " fail: Assertion failed: 1 != 2 Hint: ", n₃ ++ " OK",
          "1 tests failed. Terminate"], some 1) ∧
    runScope [(passing, n₁), (passing, n₂), (failing, n₃)] cerr =
      .ok (cerr ++ unlines
        [n₁ ++ " OK", n₂ ++ " OK", n₃ ++ " fail: Assertion failed: 1 != 2 Hint: ",
          "1 tests failed. Terminate"], some 1) ∧
    (∀ out, (Driver.driver (out, some 1) input).status = 1) := by
  have hc₁ : countRaising [(failing, n₁), (passing, n₂), (passing, n₃)] = 1 := rfl
  have hc₂ : countRaising [(passing, n₁), (failing, n₂), (passing, n₃)] = 1 := rfl
  have hc₃ : countRaising [(passing, n₁), (passing, n₂), (failing, n₃)] = 1 := rfl
  have hone : incrInt^[1] TestRunner.new.fail_count = 1 := by decide
  have hsum : format (1 : Int) = "1" := by decide
  refine ⟨?_, ?_, ?_, ?_, ?_, ?_, ?_, fun out => rfl⟩
  · rw [runTests_eq, hc₁, hone]
    simp only [List.map_cons, List.map_nil, reportLine_passing, reportLine_failing]
  · rw [runTests_eq, hc₂, hone]
    simp only [List.map_cons, List.map_nil, reportLine_passing, reportLine_failing]
  · rw [runTests_eq, hc₃, hone]
    simp only [List.map_cons, List.map_nil, reportLine_passing, reportLine_failing]
  · intro n
    refine ⟨(n ++ " fail: Assertion failed: ").data, " Hint: ".data, ?_⟩
    simp [String.data_append]
  · simp only [runScope, runTests_eq, hc₁, hone, List.map_cons, List.map_nil,
      reportLine_passing, reportLine_failing, TestRunner.destructor, bind, Except.bind, pure,
      Except.pure, hsum]
    simp [unlines, String.append_assoc]
  · simp only [runScope, runTests_eq, hc₂, hone, List.map_cons, List.map_nil,
      reportLine_passing, reportLine_failing, TestRunner.destructor, bind, Except.bind, pure,
      Except.pure, hsum]
    simp [unlines, String.append_assoc]
  · simp only [runScope, runTests_eq, hc₃, hone, List.map_cons, List.map_nil,
      reportLine_passing, reportLine_failing, TestRunner.destructor, bind, Except.bind, pure,
      Except.pure, hsum]
    simp [unlines, String.append_assoc]

theorem unknown_line_not_OK (name : String) : "Unknown exception caught" ≠ name ++ " OK" := by
  intro h
  have hin : " OK".data <:+: "Unknown exception caught".data :=
    ⟨name.data, [], by rw [h]; simp [String.data_append]⟩
  exact absurd hin (by decide)

theorem unknown_line_not_fail (name message : String) :
    "Unknown exception caught" ≠ name ++ " fail: " ++ message := by
  intro h
  have hin : " fail: ".data <:+: "Unknown exception caught".data :=
    ⟨name.data, message.data, by rw [h]; simp [String.data_append]⟩
  exact absurd hin (by decide)

theorem append_newline_cancel (a b c : String) (h : c ++ a ++ "\n" = c ++ b ++ "\n") :
    a = b := by
  have hd := congrArg String.data h
  simp only [String.data_append, List.append_assoc] at hd
  have := List.append_cancel_right (List.append_cancel_left hd)
  exact String.ext this

/-- The claim C11 fails at the test name `T` with a procedure that throws something other
than a `runtime_error`: the line written is neither `T OK` nor `T fail: ` followed by a
message. -/
theorem unknown_failure_line_lacks_the_name :
    ¬ ∃ tr' line, TestRunner.new.RunTest "" throwing "T" = .ok (tr', "" ++ line ++ "\n") ∧
        (line = "T" ++ " OK" ∨ ∃ message, line = "T" ++ " fail: " ++ message) := by
  rintro ⟨tr', line, h, hl⟩
  have hrun : TestRunner.new.RunTest "" throwing "T" =
      .ok (⟨1⟩, "" ++ "Unknown exception caught" ++ "\n") := by decide
  rw [hrun] at h
  have hline : "Unknown exception caught" = line :=
    append_newline_cancel _ _ "" (congrArg Prod.snd (Except.ok.inj h))
  subst hline
  rcases hl with h₁ | ⟨message, h₂⟩
  · exact unknown_line_not_OK "T" h₁
  · exact unknown_line_not_fail "T" message h₂

/-- C11, amended: for every test name and every outcome of the procedure, `RunTest` returns
and writes exactly one line: `name + " OK"` on normal completion, `name + " fail: " + message`
on a `runtime_error` (an assertion failure or any other one) whose `what()` is that message,
and the fixed line `Unknown exception caught` on a failure that is not a `runtime_error`;
that last line is of neither of the two other forms, whatever the name. -/
theorem RunTest_one_line_per_outcome (func : Unit → Outcome) (name : String)
    (tr : TestRunner) (cerr : String) :
    (∃ tr', tr.RunTest cerr func name = .ok (tr', cerr ++ reportLine (func, name) ++ "\n")) ∧
    (func () = .ok () → reportLine (func, name) = name ++ " OK") ∧
    (∀ message, func () = .error (.runtime_error message) →
      reportLine (func, name) = name ++ " fail: " ++ message) ∧
    (∀ detail, func () = .error (.other detail) →
      reportLine (func, name) = "Unknown exception caught") ∧
    (func () = .ok () ∨ (∃ message, func () = .error (.runtime_error message)) ∨
      ∃ detail, func () = .error (.other detail)) ∧
    "Unknown exception caught" ≠ name ++ " OK" ∧
    ∀ message, "Unknown exception caught" ≠ name ++ " fail: " ++ message := by
  refine ⟨⟨_, RunTest_eq tr cerr (func, name)⟩, ?_, ?_, ?_, ?_, unknown_line_not_OK name,
    unknown_line_not_fail name⟩
  · intro h
    simp [reportLine, h]
  · intro message h
    simp [reportLine, h]
  · intro detail h
    simp [reportLine, h]
  · rcases h : func () with e | u
    · cases e with
      | runtime_error what => exact Or.inr (Or.inl ⟨what, rfl⟩)
      | other detail => exact Or.inr (Or.inr ⟨detail, rfl⟩)
    · exact Or.inl rfl

/-- C12: `Assert(condition, hint)` has exactly the outcome of
`AssertEqual(condition, true, hint)`: it returns normally when the condition is true, and
when it is false it fails with the message `"Assertion failed: 0 != 1 Hint: " + hint`, the
booleans being written as `0` and `1`. -/
theorem Assert_is_AssertEqual_true (condition : Bool) (hint : String) :
    Assert condition hint = AssertEqual condition true hint ∧
    Assert true hint = .ok () ∧
    Assert false hint =
      .error (.runtime_error ("Assertion failed: 0 != 1 Hint: " ++ hint)) ∧
    AssertEqual false true hint =
      .error (.runtime_error ("Assertion failed: 0 != 1 Hint: " ++ hint)) ∧
    format false = "0" ∧ format true = "1" := by
  have hfalse : AssertEqual false true hint =
      .error (.runtime_error ("Assertion failed: 0 != 1 Hint: " ++ hint)) := by
    have hlit : "Assertion failed: " ++ format false ++ " != " ++ format true ++ " Hint: " =
        "Assertion failed: 0 != 1 Hint: " := by decide
    simp only [AssertEqual]
    rw [hlit]
    rfl
  exact ⟨rfl, rfl, hfalse, hfalse, rfl, rfl⟩

/-- C13: for two sequences, `AssertEqual(a, e, hint)` returns normally if and only if they
have the same length and equal elements at every position; `AssertEqual([1,2], [2,1])`
raises with the message `Assertion failed: [1, 2] != [2, 1] Hint: `. -/
theorem AssertEqual_sequences {T : Type} [Printable T] [DecidableEq T] (a e : List T)
    (hint : String) :
    (AssertEqual a e hint = .ok () ↔
      a.length = e.length ∧ ∀ (i : Nat) (ha : i < a.length) (he : i < e.length), a[i] = e[i]) ∧
    AssertEqual [(1 : Int), 2] [2, 1] "" =
      .error (.runtime_error "Assertion failed: [1, 2] != [2, 1] Hint: ") := by
  refine ⟨?_, by decide⟩
  have hiff : AssertEqual a e hint = .ok () ↔ a = e := by
    rw [AssertEqual_same_type]
    by_cases h : a = e <;> simp [h]
  rw [hiff]
  constructor
  · rintro rfl
    exact ⟨rfl, fun _ _ _ => rfl⟩
  · rintro ⟨hlen, hpos⟩
    exact List.ext_getElem hlen hpos

/-- The claim C14 fails for the mapping into which the key `b` is inserted before the key
`a`: it iterates, and is printed, with `a` first; so does the registry after
`addSynonyms(synonyms, "a", "b")`, which inserts the key `b` first. -/
theorem mapping_is_not_insertion_ordered :
    (StdMap.ofList [("b", (1 : Nat)), ("a", 2)]).entries = [("a", 2), ("b", 1)] ∧
    (StdMap.ofList [("b", (1 : Nat)), ("a", 2)]).entries.map Prod.fst ≠ ["b", "a"] ∧
    format (StdMap.ofList [("b", (1 : Nat)), ("a", 2)]) = "\x7ba: 2, b: 1\x7d" ∧
    format (StdMap.ofList [("b", (1 : Nat)), ("a", 2)]) ≠ "\x7bb: 1, a: 2\x7d" ∧
    (StdMap.update (StdMap.empty : Synonyms) "b" (fun s => s.insert "a")
      StdSet.empty).entries.map Prod.fst = ["b"] ∧
    (addSynonyms StdMap.empty "a" "b").entries.map Prod.fst = ["a", "b"] ∧
    format (addSynonyms StdMap.empty "a" "b") = "\x7ba: \x7bb\x7d, b: \x7ba\x7d\x7d" := by
  refine ⟨by decide, by decide, by decide, by decide, by decide, by decide, by decide⟩

/-- C14, amended: a mapping is ordered by key: every mapping iterates, and is printed, in
the ascending order of its keys, whatever the order in which the keys were inserted; so two
mappings built from the same entries (with distinct keys) inserted in different orders have
the same iteration sequence and the same printed form. -/
theorem mapping_iterates_in_key_order {κ ν : Type} [LinearOrder κ] [Printable κ]
    [Printable ν] (m : StdMap κ ν) (es fs : List (κ × ν))
    (hkeys : (es.map Prod.fst).Nodup) (hentries : es.Perm fs) :
    (m.entries.map Prod.fst).Sorted (· < ·) ∧
    format m = "\x7b" ++
      ", ".intercalate (m.entries.map fun kv => format kv.1 ++ ": " ++ format kv.2) ++
      "\x7d" ∧
    ((StdMap.ofList es).entries.map Prod.fst).Sorted (· < ·) ∧
    (StdMap.ofList es).entries.Perm es ∧
    (StdMap.ofList es).entries = (StdMap.ofList fs).entries ∧
    format (StdMap.ofList es) = format (StdMap.ofList fs) := by
  have hkeys' : (fs.map Prod.fst).Nodup := (hentries.map Prod.fst).nodup_iff.mp hkeys
  have hmap : StdMap.ofList es = StdMap.ofList fs :=
    StdMap.eq_of_perm _ _ ((StdMap.ofList_perm es hkeys).trans
      (hentries.trans (StdMap.ofList_perm fs hkeys').symm))
  exact ⟨m.sorted, format_map_eq m, (StdMap.ofList es).sorted, StdMap.ofList_perm es hkeys,
    by rw [hmap], by rw [hmap]⟩

/-- The key order of C14 on two entries inserted with the larger key first. -/
theorem mapping_iterates_in_key_order_witness :
    ([("b", (1 : Nat)), ("a", 2)].map Prod.fst).Nodup ∧
    [("b", (1 : Nat)), ("a", 2)].Perm [("a", 2), ("b", 1)] ∧
    (((StdMap.ofList [("a", (2 : Nat)), ("b", 1)]).entries.map Prod.fst).Sorted (· < ·) ∧
    format (StdMap.ofList [("a", (2 : Nat)), ("b", 1)]) = "\x7b" ++
      ", ".intercalate ((StdMap.ofList [("a", (2 : Nat)), ("b", 1)]).entries.map
        fun kv => format kv.1 ++ ": " ++ format kv.2) ++ "\x7d" ∧
    ((StdMap.ofList [("b", (1 : Nat)), ("a", 2)]).entries.map Prod.fst).Sorted (· < ·) ∧
    (StdMap.ofList [("b", (1 : Nat)), ("a", 2)]).entries.Perm [("b", 1), ("a", 2)] ∧
    (StdMap.ofList [("b", (1 : Nat)), ("a", 2)]).entries =
      (StdMap.ofList [("a", 2), ("b", 1)]).entries ∧
    format (StdMap.ofList [("b", (1 : Nat)), ("a", 2)]) =
      format (StdMap.ofList [("a", (2 : Nat)), ("b", 1)])) :=
  ⟨by decide, by decide,
    mapping_iterates_in_key_order (StdMap.ofList [("a", (2 : Nat)), ("b", 1)])
      [("b", (1 : Nat)), ("a", 2)] [("a", 2), ("b", 1)] (by decide) (by decide)⟩

/-- C15: `addSynonyms(s, a, b)` yields the registry in which the set of `a` is the set of
`a` in `s` with `b` added, the set of `b` is the set of `b` in `s` with `a` added, and the
entry of every other word is as in `s` (the set of a word not yet present being empty, and
`a = b` allowed); these lookups determine the registry. Adding `(a, b)` to the empty
registry yields `{a: {b}, b: {a}}`, and adding `(a, c)` to `{a: {b}, b: {a, c}, c: {b}}`
yields `{a: {b, c}, b: {a, c}, c: {a, b}}`. -/
theorem addSynonyms_spec (s : Synonyms) (a b w : String) :
    (addSynonyms s a b).find a = some (((s.find a).getD StdSet.empty).insert b) ∧
    (addSynonyms s a b).find b = some (((s.find b).getD StdSet.empty).insert a) ∧
    (w ≠ a → w ≠ b → (addSynonyms s a b).find w = s.find w) ∧
    (∀ (set : StdSet String) (x y : String),
      y ∈ (set.insert x).elems ↔ y = x ∨ y ∈ set.elems) ∧
    (∀ (m : Synonyms) (k : String) (set : StdSet String),
      m.find k = some set ↔ (k, set) ∈ m.entries) ∧
    (∀ t : Synonyms, (∀ k, t.find k = (addSynonyms s a b).find k) → t = addSynonyms s a b) ∧
    addSynonyms StdMap.empty "a" "b" =
      StdMap.ofList [("a", StdSet.ofList ["b"]), ("b", StdSet.ofList ["a"])] ∧
    addSynonyms sampleMapping "a" "c" =
      StdMap.ofList
        [("a", StdSet.ofList ["b", "c"]),
         ("b", StdSet.ofList ["a", "c"]),
         ("c", StdSet.ofList ["a", "b"])] :=
  ⟨find_addSynonyms_first s a b, find_addSynonyms_second s a b,
    find_addSynonyms_other s a b w,
    fun set x y => StdSet.mem_insertList x y set.elems,
    fun m k set => StdMap.find_eq_some_iff m k set,
    fun t ht => StdMap.ext_find t _ ht,
    by decide, by decide⟩

/-- C16: `areSynonyms(s, a, b)` is true if and only if `a` is a key of `s` and `b` is a
member of the set stored under `a`; it is false for every pair of words on the empty
registry; and it never throws: the guarded calls of `map::at` succeed, and when `a` is
absent the result is `false`. -/
theorem areSynonyms_spec (s : Synonyms) (a b : String) :
    (areSynonyms s a b = true ↔ ∃ set, (a, set) ∈ s.entries ∧ b ∈ set.elems) ∧
    areSynonyms StdMap.empty a b = false ∧
    areSynonymsAt s a b = .ok (areSynonyms s a b) ∧
    (a ∉ s.entries.map Prod.fst →
      areSynonyms s a b = false ∧ areSynonymsAt s a b = .ok false) := by
  have hAt : areSynonymsAt s a b = .ok (areSynonyms s a b) := by
    unfold areSynonymsAt areSynonyms StdMap.atKey
    cases s.find a <;> rfl
  refine ⟨?_, rfl, hAt, ?_⟩
  · unfold areSynonyms
    cases hf : s.find a with
    | none =>
      simp only [Bool.false_eq_true, false_iff, not_exists, not_and]
      intro set hmem
      rw [← StdMap.find_eq_some_iff, hf] at hmem
      exact absurd hmem (by simp)
    | some found =>
      simp only [StdSet.contains_iff]
      constructor
      · intro hb
        exact ⟨found, (StdMap.find_eq_some_iff s a found).mp hf, hb⟩
      · rintro ⟨set, hmem, hb⟩
        rw [← StdMap.find_eq_some_iff, hf] at hmem
        cases hmem
        exact hb
  · intro habsent
    have hnone : s.find a = none := (StdMap.find_eq_none_iff s a).mpr habsent
    have hfalse : areSynonyms s a b = false := by
      unfold areSynonyms
      rw [hnone]
    exact ⟨hfalse, by rw [hAt, hfalse]⟩

/-- C17: `getSynonymCount(s, w)` is the number of distinct words in the set stored under
`w` when `w` is a key of `s`, and 0 when `w` is not a key, in particular on the empty
registry; the `COUNT` command that calls it leaves the registry as it was. -/
theorem getSynonymCount_spec (s : Synonyms) (w : String) :
    (∀ set, (w, set) ∈ s.entries → getSynonymCount s w = set.elems.toFinset.card) ∧
    (w ∉ s.entries.map Prod.fst → getSynonymCount s w = 0) ∧
    getSynonymCount StdMap.empty w = 0 ∧
    (∀ rest cout, Driver.command (s, "COUNT" :: w :: rest, cout) =
      (s, rest, cout ++ toString (getSynonymCount s w) ++ "\n")) := by
  refine ⟨?_, ?_, rfl, ?_⟩
  · intro set hmem
    have hf : s.find w = some set := (StdMap.find_eq_some_iff s w set).mpr hmem
    unfold getSynonymCount
    rw [hf]
    exact (List.toFinset_card_of_nodup set.sorted.nodup).symm
  · intro habsent
    have hnone : s.find w = none := (StdMap.find_eq_none_iff s w).mpr habsent
    unfold getSynonymCount
    rw [hnone]
  · intro rest cout
    simp [Driver.command, Driver.readWord]

/-- C18: in the battery `TestAll` every assertion of the three procedures holds: the three
lines `TestAreSynonyms OK`, `TestAddSynonyms OK`, `TestCount OK` are written in that order,
the failure counter stays 0, no summary line is written and `exit` is not called, so `main`
goes on to its command processing and ends with status 0. -/
theorem TestAll_passes (cerr : String) (input : Driver.Stdin) :
    TestAreSynonyms () = .ok () ∧
    TestAddSynonyms () = .ok () ∧
    TestCount () = .ok () ∧
    TestAll cerr =
      .ok (cerr ++ unlines ["TestAreSynonyms OK", "TestAddSynonyms OK", "TestCount OK"],
        none) ∧
    runTests
        [(TestAreSynonyms, "TestAreSynonyms"), (TestAddSynonyms, "TestAddSynonyms"),
          (TestCount, "TestCount")] TestRunner.new cerr =
      .ok (⟨0⟩,
        cerr ++ unlines ["TestAreSynonyms OK", "TestAddSynonyms OK", "TestCount OK"]) ∧
    unlines ["TestAreSynonyms OK", "TestAddSynonyms OK", "TestCount OK"] =
      "TestAreSynonyms OK\nTestAddSynonyms OK\nTestCount OK\n" ∧
    Driver.main true input =
      .ok ⟨"TestAreSynonyms OK\nTestAddSynonyms OK\nTestCount OK\n",
        Driver.commands input, 0⟩ := by
  have h₁ : TestAreSynonyms () = .ok () := by decide
  have h₂ : TestAddSynonyms () = .ok () := by decide
  have h₃ : TestCount () = .ok () := by decide
  have hall : ∀ c : String, TestAll c =
      .ok (c ++ unlines ["TestAreSynonyms OK", "TestAddSynonyms OK", "TestCount OK"],
        none) := by
    intro c
    simp [TestAll, TestRunner.RunTest, TestRunner.destructor, TestRunner.new, h₁, h₂, h₃,
      bind, Except.bind, pure, Except.pure, unlines, String.append_assoc]
  have hlines : unlines ["TestAreSynonyms OK", "TestAddSynonyms OK", "TestCount OK"] =
      "TestAreSynonyms OK\nTestAddSynonyms OK\nTestCount OK\n" := by decide
  refine ⟨h₁, h₂, h₃, hall cerr, ?_, hlines, ?_⟩
  · have hc : countRaising
        [(TestAreSynonyms, "TestAreSynonyms"), (TestAddSynonyms, "TestAddSynonyms"),
          (TestCount, "TestCount")] = 0 := by
      simp [countRaising, raises, h₁, h₂, h₃]
    rw [runTests_eq, hc]
    simp [reportLine, h₁, h₂, h₃, TestRunner.new]
  · have hmain : TestAll "" =
        .ok ("TestAreSynonyms OK\nTestAddSynonyms OK\nTestCount OK\n", none) := by
      rw [hall, hlines]
      rfl
    simp [Driver.main, hmain, Driver.driver, bind, Except.bind, pure, Except.pure]

/-- C19: the synonym relation is symmetric on every registry that a sequence of
`addSynonyms` calls builds from the empty registry, and `addSynonyms` preserves the
symmetry of any registry. -/
theorem synonym_relation_is_symmetric (calls : List (String × String)) (s : Synonyms)
    (x y a b : String) :
    areSynonyms (registryOf calls) a b = areSynonyms (registryOf calls) b a ∧
    ((∀ u v, areSynonyms s u v = areSynonyms s v u) →
      ∀ u v, areSynonyms (addSynonyms s x y) u v = areSynonyms (addSynonyms s x y) v u) := by
  have hstep : ∀ (r : Synonyms) (p q : String),
      (∀ u v, areSynonyms r u v = areSynonyms r v u) →
      ∀ u v, areSynonyms (addSynonyms r p q) u v = areSynonyms (addSynonyms r p q) v u := by
    intro r p q hr u v
    rw [Bool.eq_iff_iff, areSynonyms_addSynonyms, areSynonyms_addSynonyms, hr u v]
    tauto
  refine ⟨?_, hstep s x y⟩
  have hall : ∀ cs : List (String × String), ∀ u v,
      areSynonyms (registryOf cs) u v = areSynonyms (registryOf cs) v u := by
    intro cs
    induction cs using List.reverseRecOn with
    | nil =>
      intro u v
      rfl
    | append_singleton cs c ih =>
      intro u v
      rw [registryOf_append]
      exact hstep _ _ _ ih u v
  exact hall calls a b

/-- C20: formatting is not injective, since strings are written without delimiters: the
one-element set `{"a, b"}` and the two-element set `{"a", "b"}` are unequal and both are
written `{a, b}`, so `AssertEqual` on them fails with the message
`"Assertion failed: {a, b} != {a, b} Hint: " + hint`. -/
theorem format_is_not_injective (hint : String) :
    StdSet.ofList ["a, b"] ≠ StdSet.ofList ["a", "b"] ∧
    format (StdSet.ofList ["a, b"]) = "\x7ba, b\x7d" ∧
    format (StdSet.ofList ["a", "b"]) = "\x7ba, b\x7d" ∧
    format (StdSet.ofList ["a, b"]) = format (StdSet.ofList ["a", "b"]) ∧
    AssertEqual (StdSet.ofList ["a, b"]) (StdSet.ofList ["a", "b"]) hint =
      .error (.runtime_error
        ("Assertion failed: \x7ba, b\x7d != \x7ba, b\x7d Hint: " ++ hint)) := by
  have hne : StdSet.ofList ["a, b"] ≠ StdSet.ofList ["a", "b"] := by decide
  have hlit : "Assertion failed: " ++ format (StdSet.ofList ["a, b"]) ++ " != " ++
      format (StdSet.ofList ["a", "b"]) ++ " Hint: " =
      "Assertion failed: \x7ba, b\x7d != \x7ba, b\x7d Hint: " := by decide
  refine ⟨hne, by decide, by decide, by decide, ?_⟩
  rw [AssertEqual_same_type, if_neg hne, hlit]
